import Mathlib

/-!
Verification of the tvm-web-viewer repository against its specification.

The development shallowly embeds the four components of the system:
  * the stack notation decoder (`src/runner/stack.ts`: `parseStackElement`,
    `parseStack`),
  * the stack-effect notation parser (`src/App.tsx`: `parseOpcodeStackDiff`,
    `countStackItems`),
  * the instruction classifier (`src/App.tsx`: `findOpcodeInfo`),
  * the locator resolver and link serializer (`linkToTx`, `txToLinks`).

JavaScript string primitives (`split`, `slice`, `includes`, `parseInt`,
`BigInt`, `Buffer.from`) are modelled faithfully over `List Char`, including
their lenient corner cases (lenient hex decoding, empty tokens from
`split(' ')`, truthiness checks).  External trusted libraries (the BOC cell
codec, address parsing, the indexed-lookup HTTP service) are modelled as
oracle parameters, matching the spec's interface contracts.
-/

/-! ## JavaScript string and number primitives -/

/-- JS `\s` character class (ASCII portion, as used by the source). -/
def isSpaceChar (c : Char) : Bool :=
  c = ' ' || c = '\t' || c = '\n' || c = '\r' || c = '\x0b' || c = '\x0c'

/-- JS `\w` character class: `[A-Za-z0-9_]`. -/
def isWordChar (c : Char) : Bool :=
  ('a' ≤ c && c ≤ 'z') || ('A' ≤ c && c ≤ 'Z') || ('0' ≤ c && c ≤ '9') || c = '_'

/-- Decimal digit test. -/
def isDigitChar (c : Char) : Bool := '0' ≤ c && c ≤ '9'

/-- `p` occurs at the start of `l` (JS `String.prototype.startsWith`). -/
def listStartsWith : List Char → List Char → Bool
  | _, [] => true
  | [], _ :: _ => false
  | c :: cs, p :: ps => c = p && listStartsWith cs ps

/-- `pat` occurs somewhere in `l` (JS `String.prototype.includes`). -/
def containsL : List Char → List Char → Bool
  | l, pat =>
    if listStartsWith l pat then true
    else match l with
      | [] => false
      | _ :: cs => containsL cs pat

/-- JS `includes` for strings. -/
def containsStr (s pat : String) : Bool := containsL s.data pat.data

/-- JS `startsWith` for strings. -/
def strStartsWith (s pat : String) : Bool := listStartsWith s.data pat.data

/-- JS `endsWith` for strings. -/
def strEndsWith (s pat : String) : Bool :=
  listStartsWith s.data.reverse pat.data.reverse

/-- JS `String.prototype.trim` (over the ASCII whitespace used here). -/
def jsTrimL (l : List Char) : List Char :=
  ((l.dropWhile isSpaceChar).reverse.dropWhile isSpaceChar).reverse

/-- JS `trim` for strings. -/
def jsTrim (s : String) : String := ⟨jsTrimL s.data⟩

/-- JS `s.slice(n)` / `s.substring(n)` for a nonnegative start index. -/
def dropStr (s : String) (n : Nat) : String := ⟨s.data.drop n⟩

/-- JS `s.toUpperCase()` (ASCII). -/
def jsToUpper (s : String) : String := ⟨s.data.map Char.toUpper⟩

/-- JS `split(c)` on a single-character separator: every occurrence splits. -/
def splitOnCharL (sep : Char) : List Char → List (List Char)
  | [] => [[]]
  | c :: cs =>
    if c = sep then [] :: splitOnCharL sep cs
    else (splitOnCharL sep cs).modifyHead (c :: ·)

/-- JS `split(/\s+/)`: whitespace runs separate tokens; a leading or trailing
run produces an empty token.  A run boundary is placed after the last space
of each run. -/
def splitWsRuns : List Char → List (List Char)
  | [] => [[]]
  | [c] => if isSpaceChar c then [[], []] else [[c]]
  | c :: d :: cs =>
    if isSpaceChar c then
      if isSpaceChar d then splitWsRuns (d :: cs)
      else [] :: splitWsRuns (d :: cs)
    else (splitWsRuns (d :: cs)).modifyHead (c :: ·)

/-- JS `split(/\s+|,/)`: a whitespace run or a single comma separates. -/
def splitWsComma : List Char → List (List Char)
  | [] => [[]]
  | [c] => if c = ',' || isSpaceChar c then [[], []] else [[c]]
  | c :: d :: cs =>
    if c = ',' then [] :: splitWsComma (d :: cs)
    else if isSpaceChar c then
      if isSpaceChar d then splitWsComma (d :: cs)
      else [] :: splitWsComma (d :: cs)
    else (splitWsComma (d :: cs)).modifyHead (c :: ·)

/-- Numeric value of a digit list, most significant first. -/
def digitsToNat (l : List Char) : Nat :=
  l.foldl (fun acc c => 10 * acc + (c.toNat - '0'.toNat)) 0

/-- Value of a hexadecimal digit list, most significant first. -/
def hexDigitsToNat (l : List Char) : Nat :=
  l.foldl (fun acc c =>
    16 * acc +
      (if isDigitChar c then c.toNat - '0'.toNat
       else if 'a' ≤ c && c ≤ 'f' then c.toNat - 'a'.toNat + 10
       else c.toNat - 'A'.toNat + 10)) 0

/-- Hex digit test. -/
def isHexDigitChar (c : Char) : Bool :=
  isDigitChar c || ('a' ≤ c && c ≤ 'f') || ('A' ≤ c && c ≤ 'F')

/-- JS `parseInt(s)` with no radix argument: leading whitespace and sign,
optional `0x` prefix, then a maximal digit run; `NaN` is `none`.  Trailing
garbage is ignored. -/
def jsParseInt (s : String) : Option Int :=
  let l := s.data.dropWhile isSpaceChar
  let (sign, l) : Int × List Char :=
    match l with
    | '-' :: rest => (-1, rest)
    | '+' :: rest => (1, rest)
    | _ => (1, l)
  if listStartsWith l ['0', 'x'] || listStartsWith l ['0', 'X'] then
    let ds := (l.drop 2).takeWhile isHexDigitChar
    if ds = [] then none else some (sign * (hexDigitsToNat ds : Int))
  else
    let ds := l.takeWhile isDigitChar
    if ds = [] then none else some (sign * (digitsToNat ds : Int))

/-- JS `BigInt(s)` conversion: the whole (trimmed) string must be a numeral;
the empty string converts to 0; `0x`/`0o`/`0b` prefixes are accepted without
a sign; a decimal numeral may carry one sign.  A failure (`none`) models the
thrown `SyntaxError`. -/
def jsBigInt (s : String) : Option Int :=
  let l := jsTrimL s.data
  if l = [] then some 0
  else if listStartsWith l ['0', 'x'] || listStartsWith l ['0', 'X'] then
    let ds := l.drop 2
    if ds ≠ [] && ds.all isHexDigitChar then some (hexDigitsToNat ds : Int) else none
  else if listStartsWith l ['0', 'o'] || listStartsWith l ['0', 'O'] then
    let ds := l.drop 2
    if ds ≠ [] && ds.all (fun c => '0' ≤ c && c ≤ '7') then
      some (ds.foldl (fun acc c => 8 * acc + (c.toNat - '0'.toNat)) 0 : Int)
    else none
  else if listStartsWith l ['0', 'b'] || listStartsWith l ['0', 'B'] then
    let ds := l.drop 2
    if ds ≠ [] && ds.all (fun c => c = '0' || c = '1') then
      some (ds.foldl (fun acc c => 2 * acc + (c.toNat - '0'.toNat)) 0 : Int)
    else none
  else
    let (sign, ds) : Int × List Char :=
      match l with
      | '-' :: rest => (-1, rest)
      | '+' :: rest => (1, rest)
      | _ => (1, l)
    if ds ≠ [] && ds.all isDigitChar then some (sign * (digitsToNat ds : Int)) else none

/-- Value of one hex digit, `none` for a non-digit. -/
def hexVal (c : Char) : Option (Fin 16) :=
  if h : isDigitChar c then
    some ⟨c.toNat - '0'.toNat, by
      simp only [isDigitChar, Bool.and_eq_true, decide_eq_true_eq] at h
      have h1 : '0'.toNat ≤ c.toNat := h.1
      have h2 : c.toNat ≤ '9'.toNat := h.2
      have e1 : '0'.toNat = 48 := rfl
      have e2 : '9'.toNat = 57 := rfl
      omega⟩
  else if h : 'a' ≤ c && c ≤ 'f' then
    some ⟨c.toNat - 'a'.toNat + 10, by
      simp only [Bool.and_eq_true, decide_eq_true_eq] at h
      have h1 : 'a'.toNat ≤ c.toNat := h.1
      have h2 : c.toNat ≤ 'f'.toNat := h.2
      have e1 : 'a'.toNat = 97 := rfl
      have e2 : 'f'.toNat = 102 := rfl
      omega⟩
  else if h : 'A' ≤ c && c ≤ 'F' then
    some ⟨c.toNat - 'A'.toNat + 10, by
      simp only [Bool.and_eq_true, decide_eq_true_eq] at h
      have h1 : 'A'.toNat ≤ c.toNat := h.1
      have h2 : c.toNat ≤ 'F'.toNat := h.2
      have e1 : 'A'.toNat = 65 := rfl
      have e2 : 'F'.toNat = 70 := rfl
      omega⟩
  else none

/-- Node's lenient `Buffer.from(s, 'hex')`: decodes byte pairs from the left
and stops silently at the first invalid or incomplete pair. -/
def jsBufHexL : List Char → List (Fin 256)
  | c1 :: c2 :: rest =>
    match hexVal c1, hexVal c2 with
    | some a, some b =>
      ⟨a.val * 16 + b.val, by omega⟩ :: jsBufHexL rest
    | _, _ => []
  | _ => []

/-- Base64 value of one character of the standard alphabet. -/
def b64Val (c : Char) : Option (Fin 64) :=
  if h : 'A' ≤ c && c ≤ 'Z' then
    some ⟨c.toNat - 'A'.toNat, by
      simp only [Bool.and_eq_true, decide_eq_true_eq] at h
      have h1 : 'A'.toNat ≤ c.toNat := h.1
      have h2 : c.toNat ≤ 'Z'.toNat := h.2
      have e1 : 'A'.toNat = 65 := rfl
      have e2 : 'Z'.toNat = 90 := rfl
      omega⟩
  else if h : 'a' ≤ c && c ≤ 'z' then
    some ⟨c.toNat - 'a'.toNat + 26, by
      simp only [Bool.and_eq_true, decide_eq_true_eq] at h
      have h1 : 'a'.toNat ≤ c.toNat := h.1
      have h2 : c.toNat ≤ 'z'.toNat := h.2
      have e1 : 'a'.toNat = 97 := rfl
      have e2 : 'z'.toNat = 122 := rfl
      omega⟩
  else if h : isDigitChar c then
    some ⟨c.toNat - '0'.toNat + 52, by
      simp only [isDigitChar, Bool.and_eq_true, decide_eq_true_eq] at h
      have h1 : '0'.toNat ≤ c.toNat := h.1
      have h2 : c.toNat ≤ '9'.toNat := h.2
      have e1 : '0'.toNat = 48 := rfl
      have e2 : '9'.toNat = 57 := rfl
      omega⟩
  else if c = '+' then some ⟨62, by omega⟩
  else if c = '/' then some ⟨63, by omega⟩
  else none

/-- Regroup base64 6-bit values into bytes, dropping a trailing sub-byte
remainder the way Node's decoder does. -/
def b64ValsToBytes : List (Fin 64) → List (Fin 256)
  | a :: b :: c :: d :: rest =>
    ⟨a.val * 4 + b.val / 16, by omega⟩ ::
    ⟨b.val % 16 * 16 + c.val / 4, by omega⟩ ::
    ⟨c.val % 4 * 64 + d.val, by omega⟩ :: b64ValsToBytes rest
  | [a, b] => [⟨a.val * 4 + b.val / 16, by omega⟩]
  | [a, b, c] =>
    [⟨a.val * 4 + b.val / 16, by omega⟩, ⟨b.val % 16 * 16 + c.val / 4, by omega⟩]
  | _ => []

/-- Node's forgiving `Buffer.from(s, 'base64')`: non-alphabet characters are
skipped, decoding stops at the first `=`. -/
def jsBufB64L (l : List Char) : List (Fin 256) :=
  b64ValsToBytes ((l.takeWhile (· ≠ '=')).filterMap b64Val)

/-- Lowercase hex character of a value below 16. -/
def hexChar (n : Nat) : Char :=
  if n < 10 then Char.ofNat ('0'.toNat + n) else Char.ofNat ('a'.toNat + n - 10)

/-- `Buffer.prototype.toString('hex')`: two lowercase digits per byte. -/
def bufToHexL (l : List (Fin 256)) : List Char :=
  l.flatMap fun b => [hexChar (b.val / 16), hexChar (b.val % 16)]

/-- Character of the standard base64 alphabet at an index below 64. -/
def b64Char (n : Nat) : Char :=
  if n < 26 then Char.ofNat ('A'.toNat + n)
  else if n < 52 then Char.ofNat ('a'.toNat + n - 26)
  else if n < 62 then Char.ofNat ('0'.toNat + n - 52)
  else if n = 62 then '+'
  else '/'

/-- `Buffer.prototype.toString('base64')`: standard alphabet with padding. -/
def bufToB64L : List (Fin 256) → List Char
  | [] => []
  | [a] => [b64Char (a.val / 4), b64Char (a.val % 4 * 16), '=', '=']
  | [a, b] =>
    [b64Char (a.val / 4), b64Char (a.val % 4 * 16 + b.val / 16),
     b64Char (b.val % 16 * 4), '=']
  | a :: b :: c :: rest =>
    b64Char (a.val / 4) :: b64Char (a.val % 4 * 16 + b.val / 16) ::
    b64Char (b.val % 16 * 4 + c.val / 64) :: b64Char (c.val % 64) ::
    bufToB64L rest

/-! ## Stack notation decoder (`src/runner/stack.ts`) -/

/-- An opaque binary-tree cell: bit string plus ordered child references
(the spec's Cell data model; bit-level BOC parsing itself is external). -/
inductive TvmCell where
  | mk : List Bool → List TvmCell → TvmCell

/-- Bit string of a cell. -/
def TvmCell.bits : TvmCell → List Bool
  | .mk b _ => b

/-- Child references of a cell. -/
def TvmCell.refs : TvmCell → List TvmCell
  | .mk _ r => r

/-- A parsed account address (external `Address` values are abstracted by
their display string). -/
structure JsAddress where
  display : String

/-- A slice value: a read cursor over a whole cell, as produced by
`cell.asSlice()`. -/
structure TvmSlice where
  remainingBits : Nat
  remainingRefs : Nat
  cell : TvmCell

/-- `cell.asSlice()`: the cursor covers all bits and references. -/
def asSlice (c : TvmCell) : TvmSlice :=
  { remainingBits := c.bits.length, remainingRefs := c.refs.length, cell := c }

/-- Oracle bundle for the external `@ton/core` cell codec used by
`parseStackElement`: `fromBoc` decodes a byte payload into a cell (`none`
models the thrown decode error, e.g. on an empty buffer), `loadAddress`
reads a 267-bit address out of a slice (`none` models a throw). -/
structure TonLib where
  fromBoc : List (Fin 256) → Option TvmCell
  loadAddress : TvmCell → Option JsAddress

/-- The runtime `StackElement` union of `stack.ts`: `null`, bigint, nested
array (tuple), `Cell` (also used for continuations), `Slice`, `Builder`,
`Address`, or the raw word kept as a string when nothing matched. -/
inductive StackElement where
  | null : StackElement
  | int : Int → StackElement
  | tuple : List StackElement → StackElement
  | cell : TvmCell → StackElement
  | slice : TvmSlice → StackElement
  | builder : TvmCell → StackElement
  | address : JsAddress → StackElement
  | unrecognized : String → StackElement

/-- `parseStackElement` of `stack.ts` over the word's characters.  Each
typed-wrapper branch decodes `word.slice(k, -1)` as lenient hex and feeds it
to the BOC codec; every failure path is caught in the source and falls back
to returning the raw word.  The `fuel` argument only serves structural
termination of the parenthesis-unwrapping recursion: every unwrap strips two
characters while spending one fuel, so starting from `fuel = w.length` the
zero-fuel case is unreachable. -/
def parseStackElemAux (lib : TonLib) (fuel : Nat) (w : List Char) : StackElement :=
  if w = "()".data then .null
  else if listStartsWith w ['('] && listStartsWith w.reverse [')'] then
    match fuel with
    | f + 1 => .tuple [parseStackElemAux lib f (w.drop 1).dropLast]
    | 0 => .unrecognized ⟨w⟩
  else if listStartsWith w "C\x7b".data then
    match lib.fromBoc (jsBufHexL (w.drop 2).dropLast) with
    | some c => .cell c
    | none => .unrecognized ⟨w⟩
  else if listStartsWith w "Cont\x7b".data then
    match lib.fromBoc (jsBufHexL (w.drop 5).dropLast) with
    | some c => .cell c
    | none => .unrecognized ⟨w⟩
  else if listStartsWith w "CS\x7b".data then
    match lib.fromBoc (jsBufHexL (w.drop 3).dropLast) with
    | some c =>
      let s := asSlice c
      if s.remainingBits = 267 && s.remainingRefs = 0 then
        match lib.loadAddress c with
        | some a => .address a
        | none => .unrecognized ⟨w⟩
      else .slice s
    | none => .unrecognized ⟨w⟩
  else if listStartsWith w "BC\x7b".data then
    match lib.fromBoc (jsBufHexL (w.drop 3).dropLast) with
    | some c => .builder c
    | none => .unrecognized ⟨w⟩
  else
    match jsBigInt ⟨w⟩ with
    | some i => .int i
    | none => .unrecognized ⟨w⟩

/-- Character-list entry point for `parseStackElement`. -/
def parseStackElementL (lib : TonLib) (w : List Char) : StackElement :=
  parseStackElemAux lib w.length w

/-- `parseStackElement` on a string word. -/
def parseStackElement (lib : TonLib) (word : String) : StackElement :=
  parseStackElementL lib word.data

/-- Errors observable from `parseStack`: the explicit structural throw for a
`]` with no open frame, and the implicit TypeError from pushing onto
`stackStack[stackStack.length - 1]` when no frame is open. -/
inductive StkErr where
  | structureError : String → StkErr
  | typeError : StkErr

/-- The token loop of `parseStack`.  The frame stack is kept head-as-top and
each frame accumulates elements in reverse; `stackStack[0]` of the source is
the last frame here.  Running out of tokens returns `stackStack[0]` (which
is `undefined`, i.e. `none`, when no frame was ever opened). -/
def runStack (lib : TonLib) :
    List String → List (List StackElement) → Except StkErr (Option (List StackElement))
  | [], stk => .ok ((stk.getLast?).map List.reverse)
  | w :: ws, stk =>
    let word := jsTrim w
    if word = "stack:" || word = "" then runStack lib ws stk
    else if word = "[" then runStack lib ws ([] :: stk)
    else if word = "]" then
      match stk with
      | [] => .error (.structureError "Something unexpected. Tuple ended without start.")
      | t :: rest =>
        match rest with
        | [] => .ok (some t.reverse)
        | r :: rs => runStack lib ws ((.tuple t.reverse :: r) :: rs)
    else
      match stk with
      | [] => .error .typeError
      | f :: rest => runStack lib ws ((parseStackElement lib word :: f) :: rest)

/-- The bracket padding of `parseStack`: every `[` and `]` is surrounded
with spaces so it tokenizes standalone. -/
def padBrackets (l : List Char) : List Char :=
  l.flatMap fun c =>
    if c = '[' then " [ ".data else if c = ']' then " ] ".data else [c]

/-- `parseStack` of `stack.ts`: pad brackets, split on whitespace runs, and
run the frame loop starting from an empty frame stack. -/
def parseStack (lib : TonLib) (line : String) :
    Except StkErr (Option (List StackElement)) :=
  runStack lib ((splitWsRuns (padBrackets line.data)).map (⟨·⟩)) []

/-- A trivial oracle: the codec rejects every payload.  Used for concrete
evaluations whose tokens never contain a decodable cell. -/
def noLib : TonLib :=
  { fromBoc := fun _ => none, loadAddress := fun _ => none }

/-! ## Stack-effect notation parser (`src/App.tsx`) -/

/-- JS `split(' ')` on the single-space separator: every occurrence splits,
empty fields between adjacent separators are kept. -/
def splitOnSpaceL : List Char → List (List Char) := splitOnCharL ' '

/-- Anchored match of the regex `\w+\s+<kw>\s+\w+` at the head of `l`:
a maximal nonempty word run, nonempty whitespace, the literal keyword,
nonempty whitespace, and a nonempty word run.  Returns the remainder after
the match. -/
def compoundAt (kw : List Char) (l : List Char) : Option (List Char) :=
  let w1 := l.takeWhile isWordChar
  let r1 := l.dropWhile isWordChar
  if w1 = [] then none
  else
    let s1 := r1.takeWhile isSpaceChar
    let r2 := r1.dropWhile isSpaceChar
    if s1 = [] then none
    else if listStartsWith r2 kw then
      let r3 := r2.drop kw.length
      let s2 := r3.takeWhile isSpaceChar
      let r4 := r3.dropWhile isSpaceChar
      if s2 = [] then none
      else
        let w2 := r4.takeWhile isWordChar
        let r5 := r4.dropWhile isWordChar
        if w2 = [] then none else some r5
    else none

/-- Global replacement of `/\w+\s+<kw>\s+\w+/g` by the single letter `X`,
scanning left to right and resuming after each match (JS
`String.prototype.replace` with a global regex).  The fuel argument only
serves structural termination: a match consumes at least one character while
spending one fuel, so starting from `fuel = l.length` the zero-fuel case is
unreachable. -/
def replaceCompoundAux (kw : List Char) : Nat → List Char → List Char
  | _, [] => []
  | 0, l => l
  | f + 1, c :: cs =>
    match compoundAt kw (c :: cs) with
    | some rest => 'X' :: replaceCompoundAux kw f rest
    | none => c :: replaceCompoundAux kw f cs

/-- `s.replace(/\w+\s+<kw>\s+\w+/g, 'X')`. -/
def replaceCompound (kw : List Char) (l : List Char) : List Char :=
  replaceCompoundAux kw l.length l

/-- `countStackItems` of `App.tsx`: zero for a blank side, otherwise collapse
`"a mod b"` and `"a xor b"` compounds into one placeholder token and count
the fields of a single-space split of the trimmed result. -/
def countStackItems (stackPart : String) : Nat :=
  if jsTrim stackPart = "" then 0
  else
    let normalized : String :=
      ⟨replaceCompound "xor".data (replaceCompound "mod".data stackPart.data)⟩
    (splitOnSpaceL (jsTrim normalized).data).length

/-- Leftmost non-overlapping split on a multi-character separator (JS
`split(' - ')`).  Fuel-structured like `replaceCompoundAux`. -/
def splitOnSubAux (sep : List Char) : Nat → List Char → List (List Char)
  | _, [] => [[]]
  | 0, l => [l]
  | f + 1, c :: cs =>
    if listStartsWith (c :: cs) sep then
      [] :: splitOnSubAux sep f ((c :: cs).drop sep.length)
    else (splitOnSubAux sep f cs).modifyHead (c :: ·)

/-- JS `split(sep)` for a nonempty multi-character separator. -/
def splitOnSub (sep : List Char) (l : List Char) : List (List Char) :=
  splitOnSubAux sep l.length l

/-- `parseOpcodeStackDiff` of `App.tsx`: `none` models the `null` result for
indeterminate stack-effect signatures.  The source's `try`/`catch` is dead
(no callee throws) and is omitted. -/
def parseOpcodeStackDiff (text : String) : Option (Nat × Nat) :=
  if text.length = 0 then none
  else if text = "-" then none
  else if containsStr text "or" && !containsStr text "xor" then none
  else if containsStr text "..." then none
  else if strStartsWith text "- " then
    some (0, countStackItems (dropStr text 2))
  else if strEndsWith text " -" then
    some (countStackItems ⟨text.data.take (text.length - 2)⟩, 0)
  else
    match splitOnSub " - ".data text.data with
    | [a, b] => some (countStackItems ⟨a⟩, countStackItems ⟨b⟩)
    | _ => none

/-! ## Instruction classifier (`src/App.tsx`, `findOpcodeInfo`) -/

/-- A catalog record.  Only the fields read by the classifier are kept;
`alias_of` is `none` when the JSON field is absent. -/
structure Opcode where
  name : String
  alias_of : Option String
  doc_fift : String
  doc_description : String
  doc_stack : String
deriving DecidableEq

/-- Catalog fixture: the three register-exchange records (no record is named
`XCHG` itself, mirroring the real catalog). -/
def xchgRec0 : Opcode := ⟨"XCHG_0I", none, "", "", ""⟩
/-- Catalog fixture for `XCHG_1I`. -/
def xchgRec1 : Opcode := ⟨"XCHG_1I", none, "", "", ""⟩
/-- Catalog fixture for `XCHG_IJ`. -/
def xchgRecIJ : Opcode := ⟨"XCHG_IJ", none, "", "", ""⟩
/-- A three-record catalog fixture for witnesses. -/
def xchgCat : List Opcode := [xchgRec0, xchgRec1, xchgRecIJ]

/-- Lazy bracket segment: the characters up to the first `]`, failing on a
line break (the regex `.` never matches one). -/
def bracketClose : List Char → Option (List Char)
  | [] => none
  | c :: cs =>
    if c = ']' then some cs
    else if c = '\n' || c = '\r' then none
    else bracketClose cs

/-- `paramPattern.replace(/\[.*?\]/g, '*')`: fuel-structured global
replacement of lazily-matched bracket segments by `*`. -/
def replaceBracketSegsAux : Nat → List Char → List Char
  | _, [] => []
  | 0, l => l
  | f + 1, c :: cs =>
    if c = '[' then
      match bracketClose cs with
      | some rest => '*' :: replaceBracketSegsAux f rest
      | none => c :: replaceBracketSegsAux f cs
    else c :: replaceBracketSegsAux f cs

/-- Global bracket-segment replacement by `*`. -/
def replaceBracketSegs (l : List Char) : List Char :=
  replaceBracketSegsAux l.length l

/-- Tier 3 of the classifier: first record whose fift assembly template
contains both brackets, whose command word equals the input command key, and
whose parameter pattern still contains a wildcard after bracket segments are
replaced by `*`. -/
def templTier (opcodes : List Opcode) (commandName : String) : Option Opcode :=
  opcodes.find? fun op =>
    containsStr op.doc_fift "[" && containsStr op.doc_fift "]" &&
      (let fiftParts : List String := (splitWsRuns op.doc_fift.data).map (⟨·⟩)
       let fiftCommand := jsToUpper (fiftParts.getD 0 "")
       fiftCommand == commandName &&
         (let paramPattern := String.intercalate " " (fiftParts.drop 1)
          containsStr ⟨replaceBracketSegs paramPattern.data⟩ "*"))

/-- Tier 4: first record whose free-text description contains the command
key (the description is upper-cased, the key already is). -/
def descTier (opcodes : List Opcode) (commandName : String) : Option Opcode :=
  opcodes.find? fun op => containsStr (jsToUpper op.doc_description) commandName

/-- Tier 5: first record whose name or alias-of contains the command key. -/
def partialTier (opcodes : List Opcode) (commandName : String) : Option Opcode :=
  opcodes.find? fun op =>
    containsStr (jsToUpper op.name) commandName ||
      (match op.alias_of with
       | some a => !(a == "") && containsStr (jsToUpper a) commandName
       | none => false)

/-- Tiers 3-5 in order (the code after the XCHG special case). -/
def laterTiers (opcodes : List Opcode) (commandName : String) : Option Opcode :=
  match templTier opcodes commandName with
  | some op => some op
  | none =>
    match descTier opcodes commandName with
    | some op => some op
    | none => partialTier opcodes commandName

/-- Tier 2, the special-cased `XCHG` register-exchange family.  The outer
`some` means the tier returned (its payload may still be `null` when the
named record is missing, from the source's `|| null`); `none` means the tier
fell through to the later tiers. -/
def xchgTier (opcodes : List Opcode) (parts : List String) : Option (Option Opcode) :=
  let params := (parts.drop 1).filter (fun p => strStartsWith p "s")
  match params with
  | p0 :: p1 :: _ =>
    match jsParseInt (dropStr p0 1), jsParseInt (dropStr p1 1) with
    | some i, some j =>
      if i == 0 then some (opcodes.find? (fun op => op.name == "XCHG_0I"))
      else if i == 1 then
        (if j ≥ 2 then some (opcodes.find? (fun op => op.name == "XCHG_1I")) else none)
      else
        (if i ≥ 1 && j > i && j ≤ 15 then
          some (opcodes.find? (fun op => op.name == "XCHG_IJ"))
        else none)
    | _, _ => none
  | _ => none

/-- `findOpcodeInfo` of `App.tsx`: normalization (trim, `implicit ` marker,
split on whitespace or comma, upper-case command key), then the tiers in
order: exact name match, XCHG special case, template, description substring,
name/alias substring. -/
def findOpcodeInfo (opcodes : List Opcode) (opcodeStr : String) : Option Opcode :=
  if opcodeStr == "" || opcodes.isEmpty then none
  else
    let n1 := jsTrim opcodeStr
    let normalizedStr := if strStartsWith n1 "implicit " then jsTrim (dropStr n1 9) else n1
    let parts : List String := (splitWsComma normalizedStr.data).map (⟨·⟩)
    let commandName := jsToUpper (parts.getD 0 "")
    match opcodes.find? (fun op => jsToUpper op.name == commandName) with
    | some op => some op
    | none =>
      match (if commandName == "XCHG" then xchgTier opcodes parts else none) with
      | some res => res
      | none => laterTiers opcodes commandName

/-! ## Locator resolver and link serializer (`src/unnamed/part_000`) -/

/-- One transaction summary of the indexed-lookup response (all fields are
strings, as in the toncenter v3 JSON). -/
structure TxSummary where
  account : String
  lt : String
  hash : String
deriving DecidableEq

/-- The indexed-lookup response: a list of transaction summaries; the empty
list signifies "not found" (per the spec's lookup boundary, the response is
never an error). -/
structure TransactionList where
  transactions : List TxSummary
deriving DecidableEq

/-- The resolved locator triple of `linkToTx`. -/
structure BaseTxInfo where
  lt : Int
  hash : List (Fin 256)
  addr : JsAddress

/-- Successful outcome of `linkToTx`. -/
structure ResolveOk where
  tx : BaseTxInfo
  testnet : Bool

/-- Observable resolver events: one rate-limit wait, or one indexed lookup
(`fetchTransactions`) with its hash argument and network flag. -/
inductive Ev where
  | wait : Ev
  | fetch : String → Bool → Ev
deriving DecidableEq

/-- Oracle bundle for the resolver's external collaborators: the indexed
lookup (`fetchTransactions`, total per the spec's boundary contract), the
friendly and raw address parsers of `@ton/core` (`none` models a throw),
and `new URL(...).searchParams.get(key)` (`none` models an absent key). -/
structure Env where
  fetchTx : String → Bool → TransactionList
  parseAddr : String → Option JsAddress
  parseRawAddr : String → Option JsAddress
  urlParam : String → String → Option String

/-- An error escaping `linkToTx`, carrying the JS error message. -/
structure RErr where
  message : String
deriving DecidableEq

/-- Fixed messages standing in for the external libraries' own error texts
(never compared against by the source except for the `'nope'` marker). -/
def bigIntErrMsg : String := "Cannot convert string to a BigInt"
/-- Message of the TypeError thrown by reading a property of `undefined`. -/
def typeErrMsg : String := "Cannot read properties of undefined"
/-- Message of an address-parse failure inside `@ton/core`. -/
def addrErrMsg : String := "Invalid address"
/-- Message of the length guard of the bare-hash branch (source line 253). -/
def lengthErrMsg : String :=
  "Seems like hash, but not of length 64. Probably missing letters"

/-- JS `forcedTestnet || b`: only a present `true` short-circuits. -/
def jsOrOpt (o : Option Bool) (b : Bool) : Bool :=
  if o = some true then true else b

/-- Truthiness of the optional `forcedTestnet` argument. -/
def jsTruthyOpt (o : Option Bool) : Bool := o = some true

/-- Modelled from the spec: `waitForRateLimit` lives in the runner module,
which is not part of the sources; per section 5 it blocks until the minimum
inter-call interval has elapsed since the previous indexed lookup.  Here it
is modelled as the observable `Ev.wait` event in the resolver trace. -/
def waitEv : List Ev := [Ev.wait]

/-- The `lt:hash` attempt of `linkToTx` (source lines 202-243, the body of
the outer `try`).  Returns the successful resolution or, on any caught
error, the list of format labels pushed onto `triedFormats`, together with
the trace of events. -/
def ltHashAttempt (env : Env) (txLink : String) (forced : Option Bool) :
    (ResolveOk ⊕ List String) × List Ev :=
  let parts : List String := (splitOnCharL ':' txLink.data).map (⟨·⟩)
  match jsBigInt (parts.getD 0 "") with
  | none => (.inr [], [])
  | some lt =>
    match parts[1]? with
    | none => (.inr [], [])
    | some hashStr =>
      let hash := jsBufHexL hashStr.data
      if jsTruthyOpt forced then
        let res := env.fetchTx hashStr true
        match res.transactions with
        | [] => (.inr [], [.fetch hashStr true])
        | t :: _ =>
          match env.parseRawAddr t.account with
          | none => (.inr [], [.fetch hashStr true])
          | some addr => (.inl ⟨⟨lt, hash, addr⟩, true⟩, [.fetch hashStr true])
      else
        let resM := env.fetchTx hashStr false
        match resM.transactions with
        | t :: _ =>
          match env.parseRawAddr t.account with
          | none => (.inr [], [.fetch hashStr false])
          | some addr => (.inl ⟨⟨lt, hash, addr⟩, false⟩, [.fetch hashStr false])
        | [] =>
          let resT := env.fetchTx hashStr true
          let tr := [Ev.fetch hashStr false] ++ waitEv ++ [Ev.fetch hashStr true]
          match resT.transactions with
          | [] => (.inr ["lt:hash mainnet", "lt:hash testnet"], tr)
          | t :: _ =>
            match env.parseRawAddr t.account with
            | none => (.inr ["lt:hash mainnet"], tr)
            | some addr => (.inl ⟨⟨lt, hash, addr⟩, true⟩, tr)

/-- Extraction of hash/lt/addr from a nonempty lookup result in the
bare-hash branch (source lines 296-298); a failure carries the message of
the error reaching the inner `catch`. -/
def bareHashFinish (env : Env) (res : TransactionList) (testnet : Bool) :
    ResolveOk ⊕ String :=
  match res.transactions with
  | [] => .inr typeErrMsg
  | t :: _ =>
    let hash := jsBufB64L t.hash.data
    match jsBigInt t.lt with
    | none => .inr bigIntErrMsg
    | some lt =>
      match env.parseRawAddr t.account with
      | none => .inr addrErrMsg
      | some addr => .inl ⟨⟨lt, hash, addr⟩, testnet⟩

/-- The bare-hash attempt of `linkToTx` (source lines 246-298, the body of
the inner `try`).  Returns the successful resolution or the pushed format
labels together with the message of the escaping error. -/
def bareHashAttempt (env : Env) (txLink0 : String) (forced : Option Bool) :
    (ResolveOk ⊕ (List String × String)) × List Ev :=
  let txLink :=
    if strEndsWith txLink0 "=" then (⟨bufToHexL (jsBufB64L txLink0.data)⟩ : String)
    else txLink0
  if txLink.length ≠ 64 then (.inr ([], lengthErrMsg), [])
  else if jsTruthyOpt forced then
    let res := env.fetchTx txLink true
    let tr := waitEv ++ [Ev.fetch txLink true]
    match bareHashFinish env res true with
    | .inl ok => (.inl ok, tr)
    | .inr msg => (.inr ([], msg), tr)
  else
    let resM := env.fetchTx txLink false
    match resM.transactions with
    | _ :: _ =>
      let tr := waitEv ++ [Ev.fetch txLink false]
      match bareHashFinish env resM false with
      | .inl ok => (.inl ok, tr)
      | .inr msg => (.inr ([], msg), tr)
    | [] =>
      let resT := env.fetchTx txLink true
      let tr := waitEv ++ [Ev.fetch txLink false] ++ waitEv ++ [Ev.fetch txLink true]
      match resT.transactions with
      | [] => (.inr (["bare hash mainnet", "bare hash testnet"], "nope"), tr)
      | _ :: _ =>
        match bareHashFinish env resT true with
        | .inl ok => (.inl ok, tr)
        | .inr msg => (.inr (["bare hash mainnet"], msg), tr)

/-- The catch-all branch of `linkToTx` (source lines 194-309): the `lt:hash`
attempt, then the bare-hash attempt, then the aggregated resolution error
listing every attempted format. -/
def fallbackBranch (env : Env) (txLink : String) (forced : Option Bool) :
    Except RErr ResolveOk × List Ev :=
  let base : List String := ["ton.cx", "tonviewer", "tonscan", "toncoin.org", "dton"]
  match ltHashAttempt env txLink forced with
  | (.inl ok, tr) => (.ok ok, tr)
  | (.inr pushed1, tr1) =>
    match bareHashAttempt env txLink forced with
    | (.inl ok, tr2) => (.ok ok, tr1 ++ tr2)
    | (.inr (pushed2, emsg), tr2) =>
      let triedFormats := base ++ pushed1 ++ pushed2
      let maybeMsg := if emsg ≠ "nope" then "Got strange error: " ++ emsg else ""
      let formatsStr := String.intercalate ", " triedFormats
      (.error ⟨"Coudn't recognize such link, tried all formats: " ++ formatsStr
        ++ ". " ++ maybeMsg⟩, tr1 ++ tr2)

/-- The ton.cx branch of `linkToTx` (source lines 126-137): the whole triple
is inline, no network call. -/
def toncxBranch (env : Env) (txLink : String) (forced : Option Bool) :
    Except RErr ResolveOk × List Ev :=
  let testnet := jsOrOpt forced (containsStr txLink "testnet.")
  let infoPart := if testnet then dropStr txLink 26 else dropStr txLink 18
  let parts : List String := (splitOnCharL ':' infoPart.data).map (⟨·⟩)
  match jsBigInt (parts.getD 0 "") with
  | none => (.error ⟨bigIntErrMsg⟩, [])
  | some lt =>
    match parts[1]? with
    | none => (.error ⟨typeErrMsg⟩, [])
    | some hashStr =>
      let hash := jsBufB64L hashStr.data
      match parts[2]? with
      | none => (.error ⟨addrErrMsg⟩, [])
      | some addrStr =>
        match env.parseAddr addrStr with
        | none => (.error ⟨addrErrMsg⟩, [])
        | some addr => (.ok ⟨⟨lt, hash, addr⟩, testnet⟩, [])

/-- A hash-only explorer-URL branch of `linkToTx` (tonviewer lines 138-152,
tonscan lines 153-167, dton lines 179-193): slice off the prefix, one
indexed lookup on the detected network, decode the hash from the URL
payload, and take lt/account from the first result.  `hexPayload` selects
hex (tonviewer, dton) versus base64 (tonscan) decoding. -/
def hashUrlBranch (env : Env) (txLink : String) (forced : Option Bool)
    (sliceTest sliceMain : Nat) (hexPayload : Bool) :
    Except RErr ResolveOk × List Ev :=
  let testnet := jsOrOpt forced (containsStr txLink "testnet.")
  let infoPart := if testnet then dropStr txLink sliceTest else dropStr txLink sliceMain
  let res := env.fetchTx infoPart testnet
  let tr := [Ev.fetch infoPart testnet]
  let hash := if hexPayload then jsBufHexL infoPart.data else jsBufB64L infoPart.data
  match res.transactions with
  | [] => (.error ⟨typeErrMsg⟩, tr)
  | t :: _ =>
    match env.parseRawAddr t.account with
    | none => (.error ⟨addrErrMsg⟩, tr)
    | some addr =>
      match jsBigInt t.lt with
      | none => (.error ⟨bigIntErrMsg⟩, tr)
      | some lt => (.ok ⟨⟨lt, hash, addr⟩, testnet⟩, tr)

/-- The explorer.toncoin.org branch of `linkToTx` (source lines 168-178):
query parameters carry the whole triple, no network call.  `lt` falls back
to `'0'` and `hash` to `''` on absent or empty parameters (JS `||`). -/
def toncoinBranch (env : Env) (txLink : String) (forced : Option Bool) :
    Except RErr ResolveOk × List Ev :=
  let testnet := jsOrOpt forced (containsStr txLink "test-")
  let ltStr :=
    match env.urlParam txLink "lt" with
    | none => "0"
    | some s => if s = "" then "0" else s
  match jsBigInt ltStr with
  | none => (.error ⟨bigIntErrMsg⟩, [])
  | some lt =>
    let hashStr :=
      match env.urlParam txLink "hash" with
      | none => ""
      | some s => s
    let hash := jsBufHexL hashStr.data
    let accountStr :=
      match env.urlParam txLink "account" with
      | none => ""
      | some s => s
    match env.parseAddr accountStr with
    | none => (.error ⟨addrErrMsg⟩, [])
    | some addr => (.ok ⟨⟨lt, hash, addr⟩, testnet⟩, [])

/-- `linkToTx` of `part_000`: recognize one of the five explorer URL shapes
by literal prefix, otherwise fall back to the `lt:hash` and bare-hash
attempts.  The result is the resolution outcome (`Except` models the
propagated JS exception) paired with the trace of waits and indexed
lookups. -/
def linkToTx (env : Env) (txLink : String) (forcedTestnet : Option Bool) :
    Except RErr ResolveOk × List Ev :=
  if strStartsWith txLink "https://ton.cx/tx/"
      || strStartsWith txLink "https://testnet.ton.cx/tx/" then
    toncxBranch env txLink forcedTestnet
  else if strStartsWith txLink "https://tonviewer.com/"
      || strStartsWith txLink "https://testnet.tonviewer.com/" then
    hashUrlBranch env txLink forcedTestnet 42 34 true
  else if strStartsWith txLink "https://tonscan.org/tx/"
      || strStartsWith txLink "https://testnet.tonscan.org/tx/" then
    hashUrlBranch env txLink forcedTestnet 31 23 false
  else if strStartsWith txLink "https://explorer.toncoin.org/transaction"
      || strStartsWith txLink "https://test-explorer.toncoin.org/transaction" then
    toncoinBranch env txLink forcedTestnet
  else if strStartsWith txLink "https://dton.io/tx"
      || strStartsWith txLink "https://testnet.dton.io/tx" then
    hashUrlBranch env txLink forcedTestnet 27 19 true
  else
    fallbackBranch env txLink forcedTestnet

/-- The five serialized explorer links of `txToLinks`. -/
structure TxLinks where
  toncx : String
  tonviewer : String
  tonscan : String
  toncoin : String
  dton : String

/-- `txToLinks` of `part_000`: serialize a resolved locator into the five
explorer URL shapes.  Note the dton link's hardcoded example hash, taken
verbatim from the source. -/
def txToLinks (opts : BaseTxInfo) (testnet : Bool) : TxLinks :=
  { toncx := "https://" ++ (if testnet then "testnet." else "") ++ "ton.cx/tx/"
      ++ toString opts.lt ++ ":" ++ (⟨bufToB64L opts.hash⟩ : String) ++ ":"
      ++ opts.addr.display
    tonviewer := "https://" ++ (if testnet then "testnet." else "")
      ++ "tonviewer.com/transaction/" ++ (⟨bufToHexL opts.hash⟩ : String)
    tonscan := "https://" ++ (if testnet then "testnet." else "")
      ++ "tonscan.org/tx/" ++ (⟨bufToB64L opts.hash⟩ : String)
    toncoin := "https://" ++ (if testnet then "test-" else "")
      ++ "explorer.toncoin.org/transaction?account=" ++ opts.addr.display
      ++ "&lt=" ++ toString opts.lt ++ "&hash=" ++ (⟨bufToHexL opts.hash⟩ : String)
    dton := "https://" ++ (if testnet then "testnet." else "") ++ "dton.io/tx/"
      ++ "F64C6A3CDF3FAD1D786AACF9A6130F18F3F76EEB71294F53BBD812AD3703E70A" }

/-- A closed oracle environment whose index always answers "not found" and
whose parsers always fail; used for concrete witness evaluations. -/
def emptyEnv : Env :=
  { fetchTx := fun _ _ => ⟨[]⟩
    parseAddr := fun _ => none
    parseRawAddr := fun _ => none
    urlParam := fun _ _ => none }

/-- Sixty-four `z` characters: a 64-character reference that is not valid
hexadecimal and does not end in `=`. -/
def z64 : String := ⟨List.replicate 64 'z'⟩

/-- A fixture address in friendly form. -/
def addrFix : JsAddress := ⟨"EQDa4VOnTYlLvDJ0gZjNYm5PXfSmmtL6Vs6A_CZEtXCNICq_"⟩

/-- A fixture locator whose hash is 32 zero bytes. -/
def txInfoA : BaseTxInfo := ⟨47670702000009, List.replicate 32 0, addrFix⟩

/-- A fixture locator identical to `txInfoA` except for its hash. -/
def txInfoB : BaseTxInfo := ⟨47670702000009, List.replicate 32 255, addrFix⟩

/-- An oracle environment whose mainnet index knows one transaction and
whose testnet index is empty; used for concrete witness evaluations. -/
def oneEnv : Env :=
  { emptyEnv with
    fetchTx := fun _ tn => if tn then ⟨[]⟩ else ⟨[⟨"0:ab", "123", "qq=="⟩]⟩ }

/-- The aggregated ResolutionError message produced when every format and
both bare-hash lookups failed (source lines 304-307, with the `, `-joined
`triedFormats` list and an empty strange-error suffix). -/
def allFormatsMsg : String :=
  "Coudn't recognize such link, tried all formats: ton.cx, tonviewer, tonscan, toncoin.org, dton, bare hash mainnet, bare hash testnet. "

/-- Recognizer for a successful decode that produced a sequence. -/
def isOkSome : Except StkErr (Option (List StackElement)) → Bool
  | .ok (some _) => true
  | _ => false

/-- Definition following the spec's words for section 4.1 token counting,
for comparison with the source's `countStackItems`: collapse the two-word
`mod`/`xor` compounds into one placeholder, split the side on whitespace
runs, and count the (nonempty) tokens; a whitespace-only side counts as
zero tokens. -/
def specTokenCount (side : String) : Nat :=
  ((splitWsRuns (replaceCompound "xor".data (replaceCompound "mod".data side.data))).filter
    (· ≠ [])).length

/-- A character is inert for the `\s+|,` splitter. -/
def noDelim (c : Char) : Prop := isSpaceChar c = false ∧ c ≠ ','

instance (c : Char) : Decidable (noDelim c) := by
  unfold noDelim
  infer_instance

/-! ## Helper lemmas -/

/-- Rebuilding a string from its character data is the identity. -/
theorem strMk_data (s : String) : (⟨s.data⟩ : String) = s := by
  cases s
  rfl

/-- Character data of an appended string. -/
theorem strData_append (a b : String) : (a ++ b).data = a.data ++ b.data := by
  cases a
  cases b
  rfl

/-- A contained pattern is no longer than the containing list. -/
theorem listStartsWith_length {l p : List Char} (h : listStartsWith l p = true) :
    p.length ≤ l.length := by
  induction l generalizing p with
  | nil =>
    cases p with
    | nil => simp
    | cons c cs => simp [listStartsWith] at h
  | cons c cs ih =>
    cases p with
    | nil => simp
    | cons d ds =>
      simp only [listStartsWith, Bool.and_eq_true] at h
      simpa using ih h.2

/-- A contained pattern is no longer than the containing list. -/
theorem containsL_length {l p : List Char} (h : containsL l p = true) :
    p.length ≤ l.length := by
  induction l with
  | nil =>
    rw [containsL] at h
    split at h
    · exact listStartsWith_length (by assumption)
    · simp at h
  | cons c cs ih =>
    rw [containsL] at h
    split at h
    · exact listStartsWith_length (by assumption)
    · have := ih h
      simp only [List.length_cons]
      omega



/-- Unfolding: end of tokens returns the bottom frame, reversed. -/
theorem runStack_nil (lib : TonLib) (stk : List (List StackElement)) :
    runStack lib [] stk = .ok ((stk.getLast?).map List.reverse) := rfl

/-- Unfolding: a label or empty token is skipped. -/
theorem runStack_skip (lib : TonLib) (w : String) (ws : List String) (stk)
    (h : (jsTrim w = "stack:" || jsTrim w = "") = true) :
    runStack lib (w :: ws) stk = runStack lib ws stk := by
  simp only [runStack, h, if_true]

/-- Unfolding: `[` opens a new frame. -/
theorem runStack_open (lib : TonLib) (w : String) (ws : List String) (stk)
    (h0 : (jsTrim w = "stack:" || jsTrim w = "") = false)
    (h1 : jsTrim w = "[") :
    runStack lib (w :: ws) stk = runStack lib ws ([] :: stk) := by
  simp only [runStack, h0, h1, Bool.false_eq_true, if_false, if_true]
  rfl

/-- Unfolding: `]` with at least one frame below appends the closed tuple. -/
theorem runStack_close_nested (lib : TonLib) (w : String) (ws : List String)
    (t r : List StackElement) (rs : List (List StackElement))
    (h0 : (jsTrim w = "stack:" || jsTrim w = "") = false)
    (h1 : jsTrim w ≠ "[") (h2 : jsTrim w = "]") :
    runStack lib (w :: ws) (t :: r :: rs)
      = runStack lib ws ((.tuple t.reverse :: r) :: rs) := by
  simp only [runStack, h0, h1, h2, Bool.false_eq_true, if_false, if_true]
  rfl

/-- Unfolding: `]` on the only open frame ends the decode. -/
theorem runStack_close_top (lib : TonLib) (w : String) (ws : List String)
    (t : List StackElement)
    (h0 : (jsTrim w = "stack:" || jsTrim w = "") = false)
    (h1 : jsTrim w ≠ "[") (h2 : jsTrim w = "]") :
    runStack lib (w :: ws) [t] = .ok (some t.reverse) := by
  simp only [runStack, h0, h1, h2, Bool.false_eq_true, if_false, if_true]
  rfl

/-- Unfolding: a scalar token is pushed onto the current frame. -/
theorem runStack_scalar (lib : TonLib) (w : String) (ws : List String)
    (f : List StackElement) (rest : List (List StackElement))
    (h0 : (jsTrim w = "stack:" || jsTrim w = "") = false)
    (h1 : jsTrim w ≠ "[") (h2 : jsTrim w ≠ "]") :
    runStack lib (w :: ws) (f :: rest)
      = runStack lib ws ((parseStackElement lib (jsTrim w) :: f) :: rest) := by
  simp only [runStack, h0, h1, h2, Bool.false_eq_true, if_false, if_true]

/-- Once at least one frame is open, the token loop of `parseStack` can no
longer fail: a closing bracket either returns or keeps a frame open, and
running out of tokens returns the bottom frame. -/
theorem runStack_open_frames_ok (lib : TonLib) :
    ∀ (ws : List String) (stk : List (List StackElement)), stk ≠ [] →
      isOkSome (runStack lib ws stk) = true := by
  intro ws
  induction ws with
  | nil =>
    intro stk h
    rw [runStack_nil, List.getLast?_eq_getLast_of_ne_nil h]
    rfl
  | cons w ws ih =>
    intro stk h
    by_cases h0 : (jsTrim w = "stack:" || jsTrim w = "") = true
    · rw [runStack_skip lib w ws stk h0]
      exact ih stk h
    · rw [Bool.not_eq_true] at h0
      by_cases h1 : jsTrim w = "["
      · rw [runStack_open lib w ws stk h0 h1]
        exact ih _ (by simp)
      · by_cases h2 : jsTrim w = "]"
        · match stk, h with
          | [t], _ =>
            rw [runStack_close_top lib w ws t h0 h1 h2]
            rfl
          | t :: r :: rs, _ =>
            rw [runStack_close_nested lib w ws t r rs h0 h1 h2]
            exact ih _ (by simp)
        · match stk, h with
          | f :: rest, _ =>
            rw [runStack_scalar lib w ws f rest h0 h1 h2]
            exact ih _ (by simp)

/-! ## Claims C4, C5, C6 — stack notation decoder -/

/-- C4, counterexample.  The claim says decoding never raises for a
malformed single token at any position, including scalar tokens before any
`[`.  In the source the frame stack starts empty (there is no implicit
top-level sequence), so pushing any scalar parsed before the first `[`
reads `stackStack[-1]` and raises a TypeError: the line `"C{zz} [ 1 ]"`
crashes instead of decoding `C{zz}` to Unrecognized and continuing. -/
theorem parseStack_scalar_crash_counterexample :
    parseStack noLib "C{zz} [ 1 ]" = .error .typeError := rfl

/-- C4 (amended): token-level decoding is total — `parseStackElement` maps
every token to exactly one `StackValue`, with `"C{zz}"` (invalid hex)
yielding `Unrecognized("C{zz}")` — and a malformed token inside an open
bracket frame never aborts the rest of the line; but any non-skipped token
(malformed or not) appearing before the first `[` aborts decoding with a
TypeError, because the decoder starts with no open frame. -/
theorem parseStack_token_totality_amended (lib : TonLib)
    (hboc : lib.fromBoc [] = none) :
    parseStackElement lib "C{zz}" = .unrecognized "C{zz}"
    ∧ parseStack lib "[ C{zz} 5 ]" = .ok (some [.unrecognized "C{zz}", .int 5])
    ∧ parseStack lib "C{zz}" = .error .typeError
    ∧ parseStack lib "5" = .error .typeError := by
  have e1 : parseStackElement lib "C{zz}"
      = (match lib.fromBoc [] with
         | some c => StackElement.cell c
         | none => .unrecognized "C{zz}") := rfl
  have h1 : parseStackElement lib "C{zz}" = .unrecognized "C{zz}" := by
    rw [e1, hboc]
  refine ⟨h1, ?_, rfl, rfl⟩
  have e2 : parseStack lib "[ C{zz} 5 ]"
      = .ok (some [parseStackElement lib "C{zz}", .int 5]) := rfl
  rw [e2, h1]

/-- C4, witness at the oracle that rejects every payload. -/
theorem parseStack_token_totality_witness :
    parseStackElement noLib "C{zz}" = .unrecognized "C{zz}"
    ∧ parseStack noLib "[ C{zz} 5 ]" = .ok (some [.unrecognized "C{zz}", .int 5])
    ∧ parseStack noLib "C{zz}" = .error .typeError
    ∧ parseStack noLib "5" = .error .typeError :=
  parseStack_token_totality_amended noLib rfl

/-- C5, counterexample.  The claim says the unclosed line `"[ 1 2"` raises
StructureError; the source instead runs out of tokens and returns
`stackStack[0]`, the open frame's contents, without any error. -/
theorem parseStack_unclosed_counterexample :
    parseStack noLib "[ 1 2" = .ok (some [.int 1, .int 2]) := rfl

/-- C5 (amended): a `]` token with no open frame does raise StructureError,
but a line with an unclosed `[` does not raise — once a frame is open the
token loop always returns successfully, and the unclosed line `"[ 1 2"`
returns `[Integer 1, Integer 2]`. -/
theorem parseStack_unbalanced_amended (lib : TonLib) (ws : List String)
    (stk : List (List StackElement)) (h : stk ≠ []) :
    isOkSome (runStack lib ws stk) = true
    ∧ runStack lib ("]" :: ws) []
        = .error (.structureError "Something unexpected. Tuple ended without start.")
    ∧ parseStack lib "] 1"
        = .error (.structureError "Something unexpected. Tuple ended without start.")
    ∧ parseStack lib "[ 1 2" = .ok (some [.int 1, .int 2]) :=
  ⟨runStack_open_frames_ok lib ws stk h, rfl, rfl, rfl⟩

/-- C5, witness with one open frame and one pending token. -/
theorem parseStack_unbalanced_witness :
    isOkSome (runStack noLib ["1"] [[]]) = true
    ∧ runStack noLib ("]" :: ["1"]) []
        = .error (.structureError "Something unexpected. Tuple ended without start.")
    ∧ parseStack noLib "] 1"
        = .error (.structureError "Something unexpected. Tuple ended without start.")
    ∧ parseStack noLib "[ 1 2" = .ok (some [.int 1, .int 2]) :=
  parseStack_unbalanced_amended noLib ["1"] [[]] (by simp)

/-- C6, counterexample.  Decoding `"[ 1 2 [ 3 ] ]"` yields the three-element
sequence `[Integer 1, Integer 2, Tuple[Integer 3]]` itself — the final `]`
returns the closed tuple directly — not a one-element top-level sequence
containing that tuple as the claim states. -/
theorem parseStack_nested_result_counterexample :
    parseStack noLib "[ 1 2 [ 3 ] ]"
      = .ok (some [.int 1, .int 2, .tuple [.int 3]])
    ∧ [StackElement.int 1, .int 2, .tuple [.int 3]].length = 3 := ⟨rfl, rfl⟩

/-- C6 (amended): decoding `"()"` yields Null; decoding `"(5)"` yields a
one-element Tuple containing Integer 5; decoding `"[ 1 2 [ 3 ] ]"` yields
the three-element sequence `[Integer 1, Integer 2, Tuple[Integer 3]]`
directly, with no enclosing one-element wrapper. -/
theorem parseStack_examples_amended (lib : TonLib) :
    parseStackElement lib "()" = .null
    ∧ parseStackElement lib "(5)" = .tuple [.int 5]
    ∧ parseStack lib "[ 1 2 [ 3 ] ]"
        = .ok (some [.int 1, .int 2, .tuple [.int 3]]) :=
  ⟨rfl, rfl, rfl⟩

/-! ## Claims C7, C8 — stack-effect notation parser -/

/-- C7, counterexample.  The claim says a signature containing `or` only
inside a longer word is not Indeterminate on that account; but the source
tests `text.includes('or')`, a plain substring check, so `"x - word"`
(where `or` occurs only inside `word`, and `xor` does not occur) parses to
`null` (Indeterminate) instead of `(1, 1)`. -/
theorem parseOpcodeStackDiff_or_substring_counterexample :
    parseOpcodeStackDiff "x - word" = none := rfl

/-- C7 (amended): the empty string, the literal `"-"`, any signature
containing the substring `"or"` without the substring `"xor"`, and any
signature containing `"..."` all parse to the Indeterminate result, which
is represented as `none`, distinct from `some (0, 0)` and never coerced to
it.  (The `or` test is a substring test, not a standalone-token test.) -/
theorem parseOpcodeStackDiff_indeterminate_amended (text : String)
    (h : text = "" ∨ text = "-"
       ∨ (containsStr text "or" = true ∧ containsStr text "xor" = false)
       ∨ containsStr text "..." = true) :
    parseOpcodeStackDiff text = none ∧ parseOpcodeStackDiff text ≠ some (0, 0) := by
  have hmain : parseOpcodeStackDiff text = none := by
    rcases h with h | h | ⟨h1, h2⟩ | h
    · subst h; rfl
    · subst h; rfl
    · have hlen : 2 ≤ text.data.length := by
        simpa using containsL_length (l := text.data) (p := "or".data) h1
      have hne : ¬(text.length = 0) := by
        have : text.length = text.data.length := rfl
        omega
      have hne2 : ¬(text = "-") := by
        intro he
        rw [he] at hlen
        simp at hlen
      unfold parseOpcodeStackDiff
      rw [if_neg hne, if_neg hne2, if_pos]
      rw [containsStr] at h1 h2
      simp [containsStr, h1, h2]
    · have hlen : 3 ≤ text.data.length := by
        simpa using containsL_length (l := text.data) (p := "...".data) h
      have hne : ¬(text.length = 0) := by
        have : text.length = text.data.length := rfl
        omega
      have hne2 : ¬(text = "-") := by
        intro he
        rw [he] at hlen
        simp at hlen
      unfold parseOpcodeStackDiff
      rw [if_neg hne, if_neg hne2]
      by_cases h3 : (containsStr text "or" && !containsStr text "xor") = true
      · rw [if_pos h3]
      · rw [if_neg h3, if_pos h]
  exact ⟨hmain, by rw [hmain]; simp⟩

/-- C7, witness at the signature `"x - word"`. -/
theorem parseOpcodeStackDiff_indeterminate_witness :
    parseOpcodeStackDiff "x - word" = none
    ∧ parseOpcodeStackDiff "x - word" ≠ some (0, 0) :=
  parseOpcodeStackDiff_indeterminate_amended "x - word"
    (Or.inr (Or.inr (Or.inl ⟨rfl, rfl⟩)))

/-- C8, counterexample.  The claim says produced = the whitespace token
count of the side; the source instead splits the trimmed side on single
spaces and counts empty fields too, so `"- a  b"` (two interior spaces)
parses to `(0, 3)` while the spec-side whitespace token count of `"a  b"`
is 2. -/
theorem parseOpcodeStackDiff_double_space_counterexample :
    parseOpcodeStackDiff "- a  b" = some (0, 3)
    ∧ specTokenCount "a  b" = 2 := ⟨rfl, rfl⟩

/-- C8 (amended): for a signature `"- <after>"` not covered by an
Indeterminate rule, the parser returns consumed 0 and produced =
`countStackItems <after>`, which first collapses each `"<x> mod <y>"` and
`"<x> xor <y>"` compound into a single placeholder token, then splits the
trimmed side on single spaces and counts all fields (runs of several
spaces yield empty fields that are counted); a whitespace-only side counts
as zero. -/
theorem parseOpcodeStackDiff_produce_amended (after : String)
    (h1 : (containsStr ("- " ++ after) "or"
            && !containsStr ("- " ++ after) "xor") = false)
    (h2 : containsStr ("- " ++ after) "..." = false) :
    parseOpcodeStackDiff ("- " ++ after) = some (0, countStackItems after)
    ∧ countStackItems "a mod b" = 1
    ∧ countStackItems "x y" = 2
    ∧ countStackItems "a xor b c" = 2
    ∧ countStackItems "" = 0
    ∧ countStackItems "a  b" = 3 := by
  refine ⟨?_, rfl, rfl, rfl, rfl, rfl⟩
  have hdata : ("- " ++ after).data = '-' :: ' ' :: after.data := by
    rw [strData_append]
    rfl
  have hne : ¬(("- " ++ after).length = 0) := by
    have : ("- " ++ after).length = ("- " ++ after).data.length := rfl
    rw [this, hdata]
    simp
  have hne2 : ¬(("- " ++ after) = "-") := by
    intro he
    have : ("- " ++ after).data = "-".data := by rw [he]
    rw [hdata] at this
    simp at this
  have hsw : strStartsWith ("- " ++ after) "- " = true := by
    rw [strStartsWith, hdata]
    simp [listStartsWith]
  have hdrop : dropStr ("- " ++ after) 2 = after := by
    rw [dropStr, hdata]
    simp [strMk_data]
  unfold parseOpcodeStackDiff
  rw [if_neg hne, if_neg hne2, if_neg (by rw [h1]; simp),
    if_neg (by rw [h2]; simp), if_pos hsw, hdrop]

/-- C8, witness at the signature `"- c"`. -/
theorem parseOpcodeStackDiff_produce_witness :
    parseOpcodeStackDiff ("- " ++ "c") = some (0, countStackItems "c")
    ∧ countStackItems "a mod b" = 1
    ∧ countStackItems "x y" = 2
    ∧ countStackItems "a xor b c" = 2
    ∧ countStackItems "" = 0
    ∧ countStackItems "a  b" = 3 :=
  parseOpcodeStackDiff_produce_amended "c" rfl rfl

/-! ## Tokenization lemmas for the classifier -/

/-- `trim` is the identity when neither end starts with whitespace. -/
theorem jsTrimL_id_of (l : List Char)
    (h1 : ∀ c, l.head? = some c → isSpaceChar c = false)
    (h2 : ∀ c, l.getLast? = some c → isSpaceChar c = false) :
    jsTrimL l = l := by
  unfold jsTrimL
  cases l with
  | nil => rfl
  | cons a as =>
    have ha := h1 a rfl
    rw [List.dropWhile_cons, if_neg (by simp [ha])]
    rcases hrev : (a :: as).reverse with _ | ⟨b, bs⟩
    · simp at hrev
    · have hb : (a :: as).getLast? = some b := by
        rw [← List.head?_reverse, hrev]
        rfl
      rw [List.dropWhile_cons, if_neg (by simp [h2 b hb])]
      rw [show (b :: bs) = (a :: as).reverse from hrev.symm, List.reverse_reverse]

/-- A delimiter-free list is one token for the `\s+|,` splitter. -/
theorem splitWsComma_no_delim (w : List Char) (hw : ∀ c ∈ w, noDelim c) :
    splitWsComma w = [w] := by
  induction w with
  | nil => rfl
  | cons c cs ih =>
    have hc := hw c (by simp)
    cases cs with
    | nil =>
      simp only [splitWsComma]
      rw [if_neg]
      simp [hc.1, hc.2]
    | cons d ds =>
      simp only [splitWsComma]
      rw [if_neg (by simp [hc.2]), if_neg (by simp [hc.1]),
        ih (fun x hx => hw x (by simp [hx])), List.modifyHead]

/-- A comma after a delimiter-free token splits it off. -/
theorem splitWsComma_comma (w l : List Char) (hw : ∀ c ∈ w, noDelim c) :
    splitWsComma (w ++ ',' :: l) = w :: splitWsComma l := by
  induction w with
  | nil =>
    cases l with
    | nil => rfl
    | cons d ds => rfl
  | cons c cs ih =>
    have hc := hw c (by simp)
    rcases he : cs ++ ',' :: l with _ | ⟨e, rest⟩
    · simp at he
    · show splitWsComma (c :: (cs ++ ',' :: l)) = (c :: cs) :: splitWsComma l
      rw [he]
      simp only [splitWsComma]
      rw [if_neg (by simp [hc.2]), if_neg (by simp [hc.1]), ← he,
        ih (fun x hx => hw x (by simp [hx])), List.modifyHead]

/-- A single space between a delimiter-free token and a non-space character
splits the token off. -/
theorem splitWsComma_space (w : List Char) (d : Char) (l : List Char)
    (hw : ∀ c ∈ w, noDelim c) (hd : isSpaceChar d = false) :
    splitWsComma (w ++ ' ' :: d :: l) = w :: splitWsComma (d :: l) := by
  induction w with
  | nil =>
    show splitWsComma (' ' :: d :: l) = [] :: splitWsComma (d :: l)
    simp only [splitWsComma]
    rw [if_neg (by simp), if_pos (by simp [isSpaceChar]), if_neg (by simp [hd])]
  | cons c cs ih =>
    have hc := hw c (by simp)
    rcases he : cs ++ ' ' :: d :: l with _ | ⟨e, rest⟩
    · simp at he
    · show splitWsComma (c :: (cs ++ ' ' :: d :: l)) = (c :: cs) :: splitWsComma (d :: l)
      rw [he]
      simp only [splitWsComma]
      rw [if_neg (by simp [hc.2]), if_neg (by simp [hc.1]), ← he,
        ih (fun x hx => hw x (by simp [hx])), List.modifyHead]

/-- Tokenization of a two-operand XCHG instruction text. -/
theorem splitWsComma_xchg (si sj : List Char)
    (hsi : ∀ c ∈ si, noDelim c) (hsj : ∀ c ∈ sj, noDelim c) :
    splitWsComma ("XCHG s".data ++ si ++ ',' :: 's' :: sj)
      = ["XCHG".data, 's' :: si, 's' :: sj] := by
  have e1 : "XCHG s".data ++ si ++ ',' :: 's' :: sj
      = "XCHG".data ++ ' ' :: 's' :: (si ++ ',' :: 's' :: sj) := rfl
  have hsSi : ∀ c ∈ 's' :: si, noDelim c := by
    intro c hc
    rcases List.mem_cons.mp hc with h | h
    · subst h
      exact ⟨rfl, by decide⟩
    · exact hsi c h
  have hsSj : ∀ c ∈ 's' :: sj, noDelim c := by
    intro c hc
    rcases List.mem_cons.mp hc with h | h
    · subst h
      exact ⟨rfl, by decide⟩
    · exact hsj c h
  rw [e1, splitWsComma_space "XCHG".data 's' (si ++ ',' :: 's' :: sj)
    (by decide) (by decide)]
  have e2 : 's' :: (si ++ ',' :: 's' :: sj) = ('s' :: si) ++ ',' :: ('s' :: sj) := rfl
  rw [e2, splitWsComma_comma ('s' :: si) ('s' :: sj) hsSi,
    splitWsComma_no_delim ('s' :: sj) hsSj]

/-- The whole XCHG instruction text survives `trim` unchanged. -/
theorem jsTrim_xchg (si sj : List Char) (hsj0 : sj ≠ [])
    (hsj : ∀ c ∈ sj, noDelim c) :
    jsTrimL ("XCHG s".data ++ si ++ ',' :: 's' :: sj)
      = "XCHG s".data ++ si ++ ',' :: 's' :: sj := by
  apply jsTrimL_id_of
  · intro c hc
    have e : ("XCHG s".data ++ si ++ ',' :: 's' :: sj).head? = some 'X' := rfl
    rw [e] at hc
    cases hc
    decide
  · intro c hc
    rw [List.getLast?_append_of_ne_nil _ (by simp)] at hc
    have e : (',' :: 's' :: sj) = [',', 's'] ++ sj := rfl
    rw [e, List.getLast?_append_of_ne_nil _ hsj0,
      List.getLast?_eq_getLast_of_ne_nil hsj0] at hc
    cases hc
    exact (hsj _ (List.getLast_mem hsj0)).1


theorem listStartsWith_nil (l : List Char) : listStartsWith l [] = true := by
  cases l <;> rfl

theorem findOpcodeInfo_xchg_eval (opcodes : List Opcode) (si sj : List Char)
    (i j : Int) (hop : opcodes ≠ [])
    (hex : ∀ op ∈ opcodes, jsToUpper op.name ≠ "XCHG")
    (hsi0 : si ≠ []) (hsi : ∀ c ∈ si, noDelim c)
    (hsj0 : sj ≠ []) (hsj : ∀ c ∈ sj, noDelim c)
    (hi : jsParseInt ⟨si⟩ = some i) (hj : jsParseInt ⟨sj⟩ = some j) :
    findOpcodeInfo opcodes ⟨"XCHG s".data ++ si ++ ',' :: 's' :: sj⟩
      = (if i = 0 then opcodes.find? (fun op => op.name == "XCHG_0I")
         else if i = 1 then
           (if 2 ≤ j then opcodes.find? (fun op => op.name == "XCHG_1I")
            else laterTiers opcodes "XCHG")
         else if 1 ≤ i ∧ i < j ∧ j ≤ 15 then
           opcodes.find? (fun op => op.name == "XCHG_IJ")
         else laterTiers opcodes "XCHG") := by
  have hguard : (((⟨"XCHG s".data ++ si ++ ',' :: 's' :: sj⟩ : String) == "")
      || opcodes.isEmpty) = false := by
    match opcodes, hop with
    | o :: os, _ => rfl
  have htrim : jsTrim ⟨"XCHG s".data ++ si ++ ',' :: 's' :: sj⟩
      = ⟨"XCHG s".data ++ si ++ ',' :: 's' :: sj⟩ := by
    rw [jsTrim]
    exact congrArg _ (jsTrim_xchg si sj hsj0 hsj)
  have himp : strStartsWith ⟨"XCHG s".data ++ si ++ ',' :: 's' :: sj⟩ "implicit " = false := rfl
  have hparts : (splitWsComma (⟨"XCHG s".data ++ si ++ ',' :: 's' :: sj⟩ : String).data).map
      (fun x => (⟨x⟩ : String)) = ["XCHG", ⟨'s' :: si⟩, ⟨'s' :: sj⟩] := by
    rw [show (⟨"XCHG s".data ++ si ++ ',' :: 's' :: sj⟩ : String).data
        = "XCHG s".data ++ si ++ ',' :: 's' :: sj from rfl,
      splitWsComma_xchg si sj hsi hsj]
    rfl
  have hfind : opcodes.find? (fun op => jsToUpper op.name == "XCHG") = none := by
    rw [List.find?_eq_none]
    intro op hmem
    simp [hex op hmem]
  have hparts2 : List.map (fun x => (⟨x⟩ : String))
      (splitWsComma (['X','C','H','G',' ','s'] ++ si ++ ',' :: 's' :: sj))
      = ["XCHG", ⟨'s' :: si⟩, ⟨'s' :: sj⟩] := hparts
  rw [findOpcodeInfo, if_neg (by rw [hguard]; simp)]
  rw [htrim]
  simp only [himp, Bool.false_eq_true, if_false, hparts2, hparts]
  rw [show jsToUpper ((["XCHG", (⟨'s' :: si⟩ : String), ⟨'s' :: sj⟩]).getD 0 "")
      = "XCHG" from rfl]
  rw [hfind, if_pos (by rfl), xchgTier]
  simp only [List.drop_succ_cons, List.drop_zero, List.filter_cons, List.filter_nil]
  rw [show strStartsWith (⟨'s' :: si⟩ : String) "s" = true from by
      simp [strStartsWith, listStartsWith, listStartsWith_nil]]
  rw [show strStartsWith (⟨'s' :: sj⟩ : String) "s" = true from by
      simp [strStartsWith, listStartsWith, listStartsWith_nil]]
  simp only [if_true]
  rw [show dropStr (⟨'s' :: si⟩ : String) 1 = (⟨si⟩ : String) from rfl,
    show dropStr (⟨'s' :: sj⟩ : String) 1 = (⟨sj⟩ : String) from rfl, hi, hj]
  simp only [beq_iff_eq, Bool.and_eq_true, decide_eq_true_eq, ge_iff_le]
  by_cases h0 : i = 0
  · simp [h0]
  · by_cases h1 : i = 1
    · by_cases h2 : 2 ≤ j
      · simp [h0, h1, h2]
      · simp [h0, h1, h2]
    · by_cases h3 : 1 ≤ i ∧ i < j ∧ j ≤ 15
      · simp [h0, h1, and_assoc, h3]
      · simp [h0, h1, and_assoc, h3]

/-- C9: with no exact-name catalog match, the XCHG special-case tier of the
classifier selects the slot-0 record when the first parsed slot index is 0,
the slot-1-with-high-index record when the first index is 1 and the second
at least 2, the generic ordered-pair record when the first index is at
least 2 and below the second which is at most 15, and falls through to the
later tiers for operand patterns outside these ranges (such as the
descending pair s5,s2). -/
theorem findOpcodeInfo_xchg_tiers (opcodes : List Opcode) (si sj : List Char)
    (i j : Int) (hop : opcodes ≠ [])
    (hex : ∀ op ∈ opcodes, jsToUpper op.name ≠ "XCHG")
    (hsi0 : si ≠ []) (hsi : ∀ c ∈ si, noDelim c)
    (hsj0 : sj ≠ []) (hsj : ∀ c ∈ sj, noDelim c)
    (hi : jsParseInt ⟨si⟩ = some i) (hj : jsParseInt ⟨sj⟩ = some j) :
    (i = 0 → findOpcodeInfo opcodes ⟨"XCHG s".data ++ si ++ ',' :: 's' :: sj⟩
        = opcodes.find? (fun op => op.name == "XCHG_0I"))
    ∧ (i = 1 → 2 ≤ j → findOpcodeInfo opcodes ⟨"XCHG s".data ++ si ++ ',' :: 's' :: sj⟩
        = opcodes.find? (fun op => op.name == "XCHG_1I"))
    ∧ (2 ≤ i → i < j → j ≤ 15 →
        findOpcodeInfo opcodes ⟨"XCHG s".data ++ si ++ ',' :: 's' :: sj⟩
          = opcodes.find? (fun op => op.name == "XCHG_IJ"))
    ∧ (i ≠ 0 → ¬(i = 1 ∧ 2 ≤ j) → ¬(1 ≤ i ∧ i < j ∧ j ≤ 15) →
        findOpcodeInfo opcodes ⟨"XCHG s".data ++ si ++ ',' :: 's' :: sj⟩
          = laterTiers opcodes "XCHG") := by
  rw [findOpcodeInfo_xchg_eval opcodes si sj i j hop hex hsi0 hsi hsj0 hsj hi hj]
  refine ⟨?_, ?_, ?_, ?_⟩
  · intro h
    rw [if_pos h]
  · intro h h2
    rw [if_neg (by omega), if_pos h, if_pos h2]
  · intro h1 h2 h3
    rw [if_neg (by omega), if_neg (by omega), if_pos (by omega)]
  · intro h1 h2 h3
    rw [if_neg h1]
    by_cases he : i = 1
    · rw [if_pos he, if_neg (by omega)]
    · rw [if_neg he, if_neg h3]

/-- C9, witness on the three-record catalog at the four operand patterns
s0,s3 / s1,s5 / s2,s3 / s5,s2. -/
theorem findOpcodeInfo_xchg_tiers_witness :
    findOpcodeInfo xchgCat "XCHG s0,s3" = some xchgRec0
    ∧ findOpcodeInfo xchgCat "XCHG s1,s5" = some xchgRec1
    ∧ findOpcodeInfo xchgCat "XCHG s2,s3" = some xchgRecIJ
    ∧ findOpcodeInfo xchgCat "XCHG s5,s2" = laterTiers xchgCat "XCHG" := by
  refine ⟨?_, ?_, ?_, ?_⟩
  · exact (findOpcodeInfo_xchg_tiers xchgCat ['0'] ['3'] 0 3 (by decide)
      (by decide) (by decide) (by decide) (by decide) (by decide) rfl rfl).1 rfl
  · exact (findOpcodeInfo_xchg_tiers xchgCat ['1'] ['5'] 1 5 (by decide)
      (by decide) (by decide) (by decide) (by decide) (by decide) rfl rfl).2.1
      rfl (by decide)
  · exact (findOpcodeInfo_xchg_tiers xchgCat ['2'] ['3'] 2 3 (by decide)
      (by decide) (by decide) (by decide) (by decide) (by decide) rfl rfl).2.2.1
      (by decide) (by decide) (by decide)
  · exact (findOpcodeInfo_xchg_tiers xchgCat ['5'] ['2'] 5 2 (by decide)
      (by decide) (by decide) (by decide) (by decide) (by decide) rfl rfl).2.2.2
      (by decide) (by decide) (by decide)

/-- C10: in the XCHG special-case tier, whenever the first operand's parsed
slot index is 0 and the second operand parses to any number j whatsoever,
the classifier returns the XCHG_0I lookup unconditionally — no range check
is applied to j, unlike the bounded slot-1 and ordered-pair forms. -/
theorem findOpcodeInfo_xchg_zero_no_range_check (opcodes : List Opcode)
    (si sj : List Char) (j : Int) (hop : opcodes ≠ [])
    (hex : ∀ op ∈ opcodes, jsToUpper op.name ≠ "XCHG")
    (hsi0 : si ≠ []) (hsi : ∀ c ∈ si, noDelim c)
    (hsj0 : sj ≠ []) (hsj : ∀ c ∈ sj, noDelim c)
    (hi : jsParseInt ⟨si⟩ = some 0) (hj : jsParseInt ⟨sj⟩ = some j) :
    findOpcodeInfo opcodes ⟨"XCHG s".data ++ si ++ ',' :: 's' :: sj⟩
      = opcodes.find? (fun op => op.name == "XCHG_0I") := by
  rw [findOpcodeInfo_xchg_eval opcodes si sj 0 j hop hex hsi0 hsi hsj0 hsj hi hj,
    if_pos rfl]

/-- C10, witness: both s0,s0 (j = 0) and s0,s99 (j = 99, far above 15)
select the XCHG_0I record. -/
theorem findOpcodeInfo_xchg_zero_witness :
    findOpcodeInfo xchgCat "XCHG s0,s0" = some xchgRec0
    ∧ findOpcodeInfo xchgCat "XCHG s0,s99" = some xchgRec0 := by
  refine ⟨?_, ?_⟩
  · exact findOpcodeInfo_xchg_zero_no_range_check xchgCat ['0'] ['0'] 0 (by decide)
      (by decide) (by decide) (by decide) (by decide) (by decide) rfl rfl
  · exact findOpcodeInfo_xchg_zero_no_range_check xchgCat ['0'] ['9', '9'] 99
      (by decide) (by decide) (by decide) (by decide) (by decide) (by decide) rfl rfl

/-- A separator-free list is a single field for the single-character split. -/
theorem splitOnCharL_no_sep (sep : Char) (l : List Char)
    (h : ∀ c ∈ l, c ≠ sep) : splitOnCharL sep l = [l] := by
  induction l with
  | nil => rfl
  | cons c cs ih =>
    rw [splitOnCharL, if_neg (h c (by simp)),
      ih (fun x hx => h x (by simp [hx])), List.modifyHead]

/-- Without a colon in the reference, the `lt:hash` attempt fails before any
lookup: either `BigInt` rejects the whole string, or the hash part is
missing and the hex `Buffer.from(undefined)` throws.  No format label is
pushed and no event is emitted. -/
theorem ltHashAttempt_no_colon (env : Env) (txLink : String) (forced : Option Bool)
    (h : ∀ c ∈ txLink.data, c ≠ ':') :
    ltHashAttempt env txLink forced = (.inr [], []) := by
  have hsplit : (splitOnCharL ':' txLink.data).map (fun x => (⟨x⟩ : String))
      = [⟨txLink.data⟩] := by
    rw [splitOnCharL_no_sep ':' txLink.data h]
    rfl
  rw [ltHashAttempt]
  simp only [hsplit, strMk_data, List.getD_cons_zero]
  cases hB : jsBigInt txLink with
  | none => rfl
  | some v => rfl

/-- Evaluation of the bare-hash attempt for a 64-character non-base64
reference with no explicit network hint: rate-wait then mainnet lookup; on
zero results rate-wait then testnet lookup; on zero results again, both
format labels and the `nope` marker come back. -/
theorem bareHashAttempt_hex64 (env : Env) (txLink : String)
    (he : strEndsWith txLink "=" = false) (hl : txLink.length = 64) :
    bareHashAttempt env txLink none =
      (match (env.fetchTx txLink false).transactions with
       | _ :: _ =>
         (match bareHashFinish env (env.fetchTx txLink false) false with
          | .inl ok => (.inl ok, [Ev.wait, .fetch txLink false])
          | .inr msg => (.inr ([], msg), [Ev.wait, .fetch txLink false]))
       | [] =>
         match (env.fetchTx txLink true).transactions with
         | [] => (.inr (["bare hash mainnet", "bare hash testnet"], "nope"),
                  [Ev.wait, .fetch txLink false, .wait, .fetch txLink true])
         | _ :: _ =>
           (match bareHashFinish env (env.fetchTx txLink true) true with
            | .inl ok => (.inl ok, [Ev.wait, .fetch txLink false, .wait, .fetch txLink true])
            | .inr msg => (.inr (["bare hash mainnet"], msg),
                  [Ev.wait, .fetch txLink false, .wait, .fetch txLink true]))) := by
  rw [bareHashAttempt]
  simp only [he, Bool.false_eq_true, if_false, hl, waitEv]
  rw [if_neg (by omega)]
  rw [show jsTruthyOpt none = false from rfl]
  simp only [Bool.false_eq_true, if_false]
  cases hM : (env.fetchTx txLink false).transactions with
  | cons t ts =>
    simp only [List.cons_append, List.nil_append]
  | nil =>
    cases hT : (env.fetchTx txLink true).transactions with
    | nil => simp only [List.cons_append, List.nil_append]
    | cons t ts => simp only [List.cons_append, List.nil_append]

/-- Evaluation of `linkToTx` on a colon-free 64-character bare reference
that matches no explorer URL prefix, does not end in `=`, and comes with no
network hint: the rate-gated mainnet lookup always happens first; the
testnet lookup happens exactly when the mainnet lookup returned zero
results, after another rate wait; and when both lookups return zero
results the call fails with the ResolutionError listing every attempted
format and network combination. -/
theorem linkToTx_bare_eval (env : Env) (txLink : String)
    (hp1 : strStartsWith txLink "https://ton.cx/tx/" = false)
    (hp2 : strStartsWith txLink "https://testnet.ton.cx/tx/" = false)
    (hp3 : strStartsWith txLink "https://tonviewer.com/" = false)
    (hp4 : strStartsWith txLink "https://testnet.tonviewer.com/" = false)
    (hp5 : strStartsWith txLink "https://tonscan.org/tx/" = false)
    (hp6 : strStartsWith txLink "https://testnet.tonscan.org/tx/" = false)
    (hp7 : strStartsWith txLink "https://explorer.toncoin.org/transaction" = false)
    (hp8 : strStartsWith txLink "https://test-explorer.toncoin.org/transaction" = false)
    (hp9 : strStartsWith txLink "https://dton.io/tx" = false)
    (hp10 : strStartsWith txLink "https://testnet.dton.io/tx" = false)
    (hc : ∀ c ∈ txLink.data, c ≠ ':')
    (he : strEndsWith txLink "=" = false) (hl : txLink.length = 64) :
    ((linkToTx env txLink none).2 =
      (match (env.fetchTx txLink false).transactions with
       | _ :: _ => [Ev.wait, .fetch txLink false]
       | [] => [Ev.wait, .fetch txLink false, .wait, .fetch txLink true]))
    ∧ ((env.fetchTx txLink false).transactions = [] →
       (env.fetchTx txLink true).transactions = [] →
       (linkToTx env txLink none).1 = .error ⟨allFormatsMsg⟩) := by
  have hmain : linkToTx env txLink none = fallbackBranch env txLink none := by
    rw [linkToTx, if_neg (by rw [hp1, hp2]; simp), if_neg (by rw [hp3, hp4]; simp),
      if_neg (by rw [hp5, hp6]; simp), if_neg (by rw [hp7, hp8]; simp),
      if_neg (by rw [hp9, hp10]; simp)]
  have hfb : fallbackBranch env txLink none =
      (match bareHashAttempt env txLink none with
       | (.inl ok, tr2) => (.ok ok, [] ++ tr2)
       | (.inr (pushed2, emsg), tr2) =>
         (.error ⟨"Coudn't recognize such link, tried all formats: "
            ++ String.intercalate ", "
              (["ton.cx", "tonviewer", "tonscan", "toncoin.org", "dton"] ++ [] ++ pushed2)
            ++ ". " ++ (if emsg ≠ "nope" then "Got strange error: " ++ emsg else "")⟩,
          [] ++ tr2)) := by
    rw [fallbackBranch, ltHashAttempt_no_colon env txLink none hc]
  rw [hmain, hfb, bareHashAttempt_hex64 env txLink he hl]
  cases hM : (env.fetchTx txLink false).transactions with
  | cons t ts =>
    cases hF : bareHashFinish env (env.fetchTx txLink false) false with
    | inl ok => exact ⟨rfl, by intro h; simp [hM] at h⟩
    | inr msg => exact ⟨rfl, by intro h; simp [hM] at h⟩
  | nil =>
    cases hT : (env.fetchTx txLink true).transactions with
    | nil => exact ⟨rfl, fun _ _ => rfl⟩
    | cons t ts =>
      cases hF : bareHashFinish env (env.fetchTx txLink true) true with
      | inl ok => exact ⟨rfl, by intro h1 h2; simp at h2⟩
      | inr msg => exact ⟨rfl, by intro h1 h2; simp at h2⟩

/-! ## Claims C2, C3 — locator resolver -/

/-- C2, counterexample.  The claim says a 64-character non-hex reference
not ending in `=` is rejected immediately without any network call; but on
the 64-`z` input the resolver issues two indexed lookups (bare-hash mainnet
then testnet) before failing — the bare-hash branch checks only the length,
never hex validity. -/
theorem linkToTx_malformed_hash_counterexample :
    (linkToTx emptyEnv z64 none).2
      = [Ev.wait, Ev.fetch z64 false, Ev.wait, Ev.fetch z64 true]
    ∧ (linkToTx emptyEnv z64 none).1 = .error ⟨allFormatsMsg⟩ := ⟨rfl, rfl⟩

/-- C2 (amended): a 64-character reference that is not valid hex, does not
end in `=`, contains no colon and matches no explorer URL shape is NOT
rejected immediately: the resolver attempts bare-hash indexed lookups,
mainnet first and testnet after a rate wait, and only when both return
zero results does it fail, with the ResolutionError listing every
attempted format. -/
theorem linkToTx_malformed_hash_amended (env : Env) (txLink : String)
    (hp1 : strStartsWith txLink "https://ton.cx/tx/" = false)
    (hp2 : strStartsWith txLink "https://testnet.ton.cx/tx/" = false)
    (hp3 : strStartsWith txLink "https://tonviewer.com/" = false)
    (hp4 : strStartsWith txLink "https://testnet.tonviewer.com/" = false)
    (hp5 : strStartsWith txLink "https://tonscan.org/tx/" = false)
    (hp6 : strStartsWith txLink "https://testnet.tonscan.org/tx/" = false)
    (hp7 : strStartsWith txLink "https://explorer.toncoin.org/transaction" = false)
    (hp8 : strStartsWith txLink "https://test-explorer.toncoin.org/transaction" = false)
    (hp9 : strStartsWith txLink "https://dton.io/tx" = false)
    (hp10 : strStartsWith txLink "https://testnet.dton.io/tx" = false)
    (hc : ∀ c ∈ txLink.data, c ≠ ':')
    (he : strEndsWith txLink "=" = false) (hl : txLink.length = 64)
    (hnothex : ∃ c ∈ txLink.data, isHexDigitChar c = false)
    (hm : (env.fetchTx txLink false).transactions = [])
    (ht : (env.fetchTx txLink true).transactions = []) :
    linkToTx env txLink none
      = (.error ⟨allFormatsMsg⟩,
         [Ev.wait, Ev.fetch txLink false, Ev.wait, Ev.fetch txLink true]) := by
  obtain ⟨htr, herr⟩ := linkToTx_bare_eval env txLink hp1 hp2 hp3 hp4 hp5 hp6
    hp7 hp8 hp9 hp10 hc he hl
  have h1 : (linkToTx env txLink none).2
      = [Ev.wait, Ev.fetch txLink false, Ev.wait, Ev.fetch txLink true] := by
    rw [htr, hm]
  calc linkToTx env txLink none
      = ((linkToTx env txLink none).1, (linkToTx env txLink none).2) := rfl
    _ = _ := by rw [h1, herr hm ht]

/-- C2, witness at the 64-`z` reference against the empty index. -/
theorem linkToTx_malformed_hash_witness :
    linkToTx emptyEnv z64 none
      = (.error ⟨allFormatsMsg⟩,
         [Ev.wait, Ev.fetch z64 false, Ev.wait, Ev.fetch z64 true]) :=
  linkToTx_malformed_hash_amended emptyEnv z64 (by decide) (by decide) (by decide)
    (by decide) (by decide) (by decide) (by decide) (by decide) (by decide)
    (by decide) (by decide) (by decide) (by decide)
    ⟨'z', by decide, by decide⟩ rfl rfl

/-- C3: for a bare hash-only reference with no explicit network hint, the
resolver queries the mainnet index first (behind the rate gate); it queries
the testnet index only after the mainnet query returned zero results, and
only after another rate wait; a non-empty mainnet result short-circuits the
testnet attempt; and if both networks return zero results the call fails
with a ResolutionError whose message lists every format and network
combination attempted, including the zero-result ones. -/
theorem linkToTx_mainnet_first (env : Env) (txLink : String)
    (hp1 : strStartsWith txLink "https://ton.cx/tx/" = false)
    (hp2 : strStartsWith txLink "https://testnet.ton.cx/tx/" = false)
    (hp3 : strStartsWith txLink "https://tonviewer.com/" = false)
    (hp4 : strStartsWith txLink "https://testnet.tonviewer.com/" = false)
    (hp5 : strStartsWith txLink "https://tonscan.org/tx/" = false)
    (hp6 : strStartsWith txLink "https://testnet.tonscan.org/tx/" = false)
    (hp7 : strStartsWith txLink "https://explorer.toncoin.org/transaction" = false)
    (hp8 : strStartsWith txLink "https://test-explorer.toncoin.org/transaction" = false)
    (hp9 : strStartsWith txLink "https://dton.io/tx" = false)
    (hp10 : strStartsWith txLink "https://testnet.dton.io/tx" = false)
    (hc : ∀ c ∈ txLink.data, c ≠ ':')
    (he : strEndsWith txLink "=" = false) (hl : txLink.length = 64) :
    ((env.fetchTx txLink false).transactions ≠ [] →
        (linkToTx env txLink none).2 = [Ev.wait, Ev.fetch txLink false])
    ∧ ((env.fetchTx txLink false).transactions = [] →
        (linkToTx env txLink none).2
          = [Ev.wait, Ev.fetch txLink false, Ev.wait, Ev.fetch txLink true])
    ∧ ((env.fetchTx txLink false).transactions = [] →
        (env.fetchTx txLink true).transactions = [] →
        (linkToTx env txLink none).1 = .error ⟨allFormatsMsg⟩) := by
  obtain ⟨htr, herr⟩ := linkToTx_bare_eval env txLink hp1 hp2 hp3 hp4 hp5 hp6
    hp7 hp8 hp9 hp10 hc he hl
  refine ⟨?_, ?_, herr⟩
  · intro h
    rw [htr]
    cases hM : (env.fetchTx txLink false).transactions with
    | nil => exact absurd hM h
    | cons t ts => rfl
  · intro h
    rw [htr, h]

/-- C3, witness: a mainnet index with one hit short-circuits after one
lookup; the empty index produces the mainnet-then-testnet trace and the
aggregated error. -/
theorem linkToTx_mainnet_first_witness :
    (linkToTx oneEnv z64 none).2 = [Ev.wait, Ev.fetch z64 false]
    ∧ (linkToTx emptyEnv z64 none).2
        = [Ev.wait, Ev.fetch z64 false, Ev.wait, Ev.fetch z64 true]
    ∧ (linkToTx emptyEnv z64 none).1 = .error ⟨allFormatsMsg⟩ := by
  refine ⟨?_, ?_, ?_⟩
  · exact (linkToTx_mainnet_first oneEnv z64 (by decide) (by decide) (by decide)
      (by decide) (by decide) (by decide) (by decide) (by decide) (by decide)
      (by decide) (by decide) (by decide) (by decide)).1 (by decide)
  · exact (linkToTx_mainnet_first emptyEnv z64 (by decide) (by decide) (by decide)
      (by decide) (by decide) (by decide) (by decide) (by decide) (by decide)
      (by decide) (by decide) (by decide) (by decide)).2.1 rfl
  · exact (linkToTx_mainnet_first emptyEnv z64 (by decide) (by decide) (by decide)
      (by decide) (by decide) (by decide) (by decide) (by decide) (by decide)
      (by decide) (by decide) (by decide) (by decide)).2.2 rfl rfl

/-! ## Injectivity of the link hash encodings -/

/-- `hexChar` is injective below 16. -/
theorem hexChar_inj : ∀ a < 16, ∀ b < 16, hexChar a = hexChar b → a = b := by
  decide

/-- `b64Char` is injective below 64. -/
theorem b64Char_inj : ∀ a < 64, ∀ b < 64, b64Char a = b64Char b → a = b := by
  decide

/-- `b64Char` never yields the padding character. -/
theorem b64Char_ne_pad : ∀ a < 64, b64Char a ≠ '=' := by
  decide

/-- The hex serialization of a byte buffer is injective. -/
theorem bufToHexL_inj : ∀ l1 l2 : List (Fin 256),
    bufToHexL l1 = bufToHexL l2 → l1 = l2 := by
  intro l1
  induction l1 with
  | nil =>
    intro l2 h
    cases l2 with
    | nil => rfl
    | cons b t => simp [bufToHexL] at h
  | cons a t1 ih =>
    intro l2 h
    cases l2 with
    | nil => simp [bufToHexL] at h
    | cons b t2 =>
      simp only [bufToHexL, List.flatMap_cons, List.cons_append, List.nil_append,
        List.cons.injEq] at h
      obtain ⟨h1, h2, h3⟩ := h
      have e1 : a.val / 16 = b.val / 16 :=
        hexChar_inj _ (by omega) _ (by omega) h1
      have e2 : a.val % 16 = b.val % 16 :=
        hexChar_inj _ (by omega) _ (by omega) h2
      have : a = b := by
        apply Fin.ext
        omega
      rw [this, ih t2 (by simpa [bufToHexL] using h3)]

/-- Only the empty buffer serializes to the empty base64 string. -/
theorem bufToB64L_eq_nil : ∀ l : List (Fin 256), bufToB64L l = [] → l = [] := by
  intro l h
  match l with
  | [] => rfl
  | [a] => simp [bufToB64L] at h
  | [a, b] => simp [bufToB64L] at h
  | a :: b :: c :: rest => simp [bufToB64L] at h

/-- The base64 serialization of a byte buffer is injective. -/
theorem bufToB64L_inj_aux : ∀ (n : Nat) (l1 l2 : List (Fin 256)), l1.length ≤ n →
    bufToB64L l1 = bufToB64L l2 → l1 = l2 := by
  intro n
  induction n with
  | zero =>
    intro l1 l2 hlen h
    have : l1 = [] := by
      cases l1 with
      | nil => rfl
      | cons a t => simp at hlen
    subst this
    exact (bufToB64L_eq_nil l2 (by simpa [bufToB64L] using h.symm)).symm
  | succ n ih =>
    intro l1 l2 hlen h
    match l1, l2 with
    | [], l2 =>
      exact (bufToB64L_eq_nil l2 (by simpa [bufToB64L] using h.symm)).symm
    | l1, [] =>
      exact bufToB64L_eq_nil l1 (by simpa [bufToB64L] using h)
    | [a1], [a2] =>
      simp only [bufToB64L, List.cons.injEq, and_true] at h
      have e1 : a1.val / 4 = a2.val / 4 :=
        b64Char_inj _ (by omega) _ (by omega) h.1
      have e2 : a1.val % 4 * 16 = a2.val % 4 * 16 :=
        b64Char_inj _ (by omega) _ (by omega) h.2
      have : a1 = a2 := by
        apply Fin.ext
        omega
      rw [this]
    | [a1], [a2, b2] =>
      simp only [bufToB64L, List.cons.injEq, and_true] at h
      exact absurd h.2.2.symm (b64Char_ne_pad _ (by omega))
    | [a1], a2 :: b2 :: c2 :: r2 =>
      simp only [bufToB64L, List.cons.injEq] at h
      exact absurd h.2.2.1.symm (b64Char_ne_pad _ (by omega))
    | [a1, b1], [a2] =>
      simp only [bufToB64L, List.cons.injEq, and_true] at h
      exact absurd h.2.2 (b64Char_ne_pad _ (by omega))
    | [a1, b1], [a2, b2] =>
      simp only [bufToB64L, List.cons.injEq, and_true] at h
      have e1 : a1.val / 4 = a2.val / 4 :=
        b64Char_inj _ (by omega) _ (by omega) h.1
      have e2 : a1.val % 4 * 16 + b1.val / 16 = a2.val % 4 * 16 + b2.val / 16 :=
        b64Char_inj _ (by omega) _ (by omega) h.2.1
      have e3 : b1.val % 16 * 4 = b2.val % 16 * 4 :=
        b64Char_inj _ (by omega) _ (by omega) h.2.2
      have ha : a1 = a2 := by
        apply Fin.ext
        omega
      have hb : b1 = b2 := by
        apply Fin.ext
        omega
      rw [ha, hb]
    | [a1, b1], a2 :: b2 :: c2 :: r2 =>
      simp only [bufToB64L, List.cons.injEq] at h
      exact absurd h.2.2.2.1.symm (b64Char_ne_pad _ (by omega))
    | a1 :: b1 :: c1 :: r1, [a2] =>
      simp only [bufToB64L, List.cons.injEq] at h
      exact absurd h.2.2.2.1 (b64Char_ne_pad _ (by omega))
    | a1 :: b1 :: c1 :: r1, [a2, b2] =>
      simp only [bufToB64L, List.cons.injEq] at h
      exact absurd h.2.2.2.1 (b64Char_ne_pad _ (by omega))
    | a1 :: b1 :: c1 :: r1, a2 :: b2 :: c2 :: r2 =>
      simp only [bufToB64L, List.cons.injEq] at h
      have e1 : a1.val / 4 = a2.val / 4 :=
        b64Char_inj _ (by omega) _ (by omega) h.1
      have e2 : a1.val % 4 * 16 + b1.val / 16 = a2.val % 4 * 16 + b2.val / 16 :=
        b64Char_inj _ (by omega) _ (by omega) h.2.1
      have e3 : b1.val % 16 * 4 + c1.val / 64 = b2.val % 16 * 4 + c2.val / 64 :=
        b64Char_inj _ (by omega) _ (by omega) h.2.2.1
      have e4 : c1.val % 64 = c2.val % 64 :=
        b64Char_inj _ (by omega) _ (by omega) h.2.2.2.1
      have ha : a1 = a2 := by
        apply Fin.ext
        omega
      have hb : b1 = b2 := by
        apply Fin.ext
        omega
      have hc : c1 = c2 := by
        apply Fin.ext
        omega
      have hr : r1 = r2 := by
        apply ih r1 r2 (by simp at hlen; omega)
        exact h.2.2.2.2
      rw [ha, hb, hc, hr]

/-- The base64 serialization of a byte buffer is injective. -/
theorem bufToB64L_inj (l1 l2 : List (Fin 256)) (h : bufToB64L l1 = bufToB64L l2) :
    l1 = l2 :=
  bufToB64L_inj_aux l1.length l1 l2 (Nat.le_refl _) h

/-- Character data of a rebuilt string. -/
theorem strMkData (l : List Char) : (⟨l⟩ : String).data = l := rfl

/-- Strings with the same character data are equal. -/
theorem strData_inj {s1 s2 : String} (h : s1.data = s2.data) : s1 = s2 := by
  cases s1
  cases s2
  exact congrArg String.mk h

/-- Addresses with the same display string are equal. -/
theorem jsAddress_ext {a1 a2 : JsAddress} (h : a1.display = a2.display) :
    a1 = a2 := by
  cases a1
  cases a2
  simpa using h

/-! ## Claim C1 — explorer link serialization -/

/-- C1, counterexample.  The dton link of `txToLinks` embeds a hardcoded
example hash (copied from the comment in `linkToTx`), so two locators with
different hashes produce the same dton link, contradicting the claim that
each of the five produced URLs encodes the locator's own hash. -/
theorem txToLinks_dton_constant_counterexample :
    txInfoA.hash ≠ txInfoB.hash
    ∧ (txToLinks txInfoA false).dton = (txToLinks txInfoB false).dton :=
  ⟨by decide, rfl⟩

/-- C1 (amended): the ton.cx, tonviewer, tonscan and toncoin links embed the
locator's hash byte-identically (base64 for ton.cx/tonscan, lowercase hex
for tonviewer/toncoin), and ton.cx and toncoin also embed the address, so
for these four formats locators differing in hash (or, for ton.cx/toncoin,
in address) produce different links; the dton link however contains a fixed
hardcoded example hash and is identical for all locators on a given
network. -/
theorem txToLinks_hash_embedding_amended (o1 o2 : BaseTxInfo) (tn : Bool) :
    (txToLinks o1 tn).dton = (txToLinks o2 tn).dton
    ∧ (o1.hash ≠ o2.hash →
        (txToLinks o1 tn).tonviewer ≠ (txToLinks o2 tn).tonviewer
        ∧ (txToLinks o1 tn).tonscan ≠ (txToLinks o2 tn).tonscan)
    ∧ (o1.lt = o2.lt → o1.addr = o2.addr → o1.hash ≠ o2.hash →
        (txToLinks o1 tn).toncx ≠ (txToLinks o2 tn).toncx
        ∧ (txToLinks o1 tn).toncoin ≠ (txToLinks o2 tn).toncoin)
    ∧ (o1.lt = o2.lt → o1.hash = o2.hash → o1.addr ≠ o2.addr →
        (txToLinks o1 tn).toncx ≠ (txToLinks o2 tn).toncx
        ∧ (txToLinks o1 tn).toncoin ≠ (txToLinks o2 tn).toncoin) := by
  refine ⟨rfl, fun hh => ⟨?_, ?_⟩, fun hlt haddr hh => ⟨?_, ?_⟩,
    fun hlt hh haddr => ⟨?_, ?_⟩⟩
  · intro heq
    simp only [txToLinks] at heq
    have hd := congrArg String.data heq
    simp only [strData_append, strMkData] at hd
    exact hh (bufToHexL_inj _ _ (List.append_cancel_left hd))
  · intro heq
    simp only [txToLinks] at heq
    have hd := congrArg String.data heq
    simp only [strData_append, strMkData] at hd
    exact hh (bufToB64L_inj _ _ (List.append_cancel_left hd))
  · intro heq
    simp only [txToLinks] at heq
    rw [hlt, haddr] at heq
    have hd := congrArg String.data heq
    simp only [strData_append, strMkData] at hd
    have h1 := List.append_cancel_right hd
    have h2 := List.append_cancel_right h1
    exact hh (bufToB64L_inj _ _ (List.append_cancel_left h2))
  · intro heq
    simp only [txToLinks] at heq
    rw [hlt, haddr] at heq
    have hd := congrArg String.data heq
    simp only [strData_append, strMkData] at hd
    exact hh (bufToHexL_inj _ _ (List.append_cancel_left hd))
  · intro heq
    simp only [txToLinks] at heq
    rw [hlt, hh] at heq
    have hd := congrArg String.data heq
    simp only [strData_append, strMkData] at hd
    exact haddr (jsAddress_ext (strData_inj (List.append_cancel_left hd)))
  · intro heq
    simp only [txToLinks] at heq
    rw [hlt, hh] at heq
    have hd := congrArg String.data heq
    simp only [strData_append, strMkData] at hd
    have h1 := List.append_cancel_right hd
    have h2 := List.append_cancel_right h1
    have h3 := List.append_cancel_right h2
    have h4 := List.append_cancel_right h3
    exact haddr (jsAddress_ext (strData_inj (List.append_cancel_left h4)))

/-- C1, witness at the two fixture locators that differ only in hash. -/
theorem txToLinks_hash_embedding_witness :
    (txToLinks txInfoA false).dton = (txToLinks txInfoB false).dton
    ∧ ((txToLinks txInfoA false).tonviewer ≠ (txToLinks txInfoB false).tonviewer
       ∧ (txToLinks txInfoA false).tonscan ≠ (txToLinks txInfoB false).tonscan)
    ∧ ((txToLinks txInfoA false).toncx ≠ (txToLinks txInfoB false).toncx
       ∧ (txToLinks txInfoA false).toncoin ≠ (txToLinks txInfoB false).toncoin) := by
  obtain ⟨h1, h2, h3, _⟩ := txToLinks_hash_embedding_amended txInfoA txInfoB false
  exact ⟨h1, h2 (by decide), h3 rfl rfl (by decide)⟩
